import Mathlib

set_option maxRecDepth 8000

/-!
Verification development for the JsonTalkiePy protocol engine.

Shallow embedding of the byte-level field codec, checksum engine, stream
framer and the dispatch/state machine of `src/json_talkie.py` and
`src/broadcast_socket_serial.py`.  Buffers are lists of byte values
(`List Nat`), messages are ordered key/value association lists mirroring
Python dict semantics (insertion order kept, assignment updates in place),
and fallible code returns `Except PyExc`.  The Python `try` in the receive
loop catches only decode failures, which are modelled as `Option.none`
results of `decode`; `KeyError`, `ValueError` and `TypeError` propagate.
-/

/-! ## Field codec (json_talkie.py lines 383-616)

Byte constants used below: `{` 123, `}` 125, `"` 34, `:` 58, `,` 44,
`\` 92, `0` 48, `9` 57, `c` 99, `m` 109, `M` 77, `i` 105. -/

/-! ## Stream framer (broadcast_socket_serial.py lines 190-235) -/

/-! ## Engine state and collaborators -/

/-! ## Outbound path (json_talkie.py lines 146-208) -/

/-! ## Inbound path (json_talkie.py lines 69-143, 305-367) -/

/-! ## Dict-level encoding and `valid_checksum` (lines 329-367) -/

/-! ## Layout lemmas: the checksum field appended by `set_number`

`set_number` appends `,"c":<digits>` immediately before a buffer's final
`}`.  The lemmas below characterise `colonScan`, `get_number`,
`get_field_length` and `remove` on buffers of that layout, for an arbitrary
base buffer that contains no `"c":` byte window of its own. -/

/-! ## Concrete scenario material -/

/-- Reduction of the `Except` monad's bind on a success value. -/
@[simp] theorem exBind_ok {ea b : Type} (a : ea) (f : ea → Except PyExc b) :
    (Except.ok a : Except PyExc ea) >>= f = f a := rfl

/-- Reduction of the `Except` monad's bind on an exception. -/
@[simp] theorem exBind_err {ea b : Type} (e : PyExc) (f : ea → Except PyExc b) :
    (Except.error e : Except PyExc ea) >>= f = Except.error e := rfl

/-- `pure` in the `Except` monad is `Except.ok`. -/
@[simp] theorem exPure {ea : Type} (a : ea) :
    (pure a : Except PyExc ea) = Except.ok a := rfl

/-- Python exceptions that can escape the per-frame try block of `listen`
(only decode failures are caught there).  `fuel` is a model artifact marking
exhaustion of the recursion budget of the mutually recursive dispatch
functions; all theorems use enough fuel that it never occurs. -/
inductive PyExc where
  | keyError
  | valueError
  | typeError
  | fuel
deriving DecidableEq, Repr

/-- JSON values appearing in protocol messages: unsigned/signed integers and
text (as raw bytes).  These are the value kinds the engine reads and writes. -/
inductive JVal where
  | int (n : Int)
  | str (s : List Nat)
deriving DecidableEq, Repr

/-- A decoded message: ordered mapping from a one-byte key to a value,
mirroring a Python dict with the protocol's single-character keys. -/
abbrev Msg := List (Nat × JVal)

/-- Python `d.get(k)` / `d[k]`: first binding of the key. -/
def mlookup : Msg → Nat → Option JVal
  | [], _ => none
  | (k, v) :: rest, key => if k = key then some v else mlookup rest key

/-- Python `k in d`. -/
def mhas (m : Msg) (k : Nat) : Bool := (mlookup m k).isSome

/-- Python `d[k] = v`: replace the first binding in place, else append. -/
def mset : Msg → Nat → JVal → Msg
  | [], key, v => [(key, v)]
  | (k, w) :: rest, key, v =>
      if k = key then (k, v) :: rest else (k, w) :: mset rest key v

/-- The scanning loop of `get_colon_position`: first index `i` (moving
forward) whose byte is `:` preceded by `"`, the key byte, `"`; 0 if none. -/
def colonScanAux (p : List Nat) (key : Nat) : Nat → Nat → Nat
  | _, 0 => 0
  | i, fuelC + 1 =>
      if i < p.length then
        if p.getD i 0 = 58 ∧ p.getD (i - 2) 0 = key ∧
            p.getD (i - 3) 0 = 34 ∧ p.getD (i - 1) 0 = 34 then
          i
        else
          colonScanAux p key (i + 1) fuelC
      else 0

def colonScan (p : List Nat) (key : Nat) (i : Nat) : Nat :=
  colonScanAux p key i (p.length - i)

/-- `JsonTalkie.get_colon_position`: scan from `start` (default 4) for the
colon of the field `"k":`, requiring a minimum total length of 7. -/
def get_colon_position (p : List Nat) (key : Nat) (start : Nat := 4) : Nat :=
  if 6 < p.length then colonScan p key start else 0

/-- `JsonTalkie.get_value_position`. -/
def get_value_position (p : List Nat) (key : Nat) (start : Nat := 4) : Nat :=
  let cp := get_colon_position p key start
  if cp ≠ 0 then cp + 1 else 0

/-- `JsonTalkie.get_key_position`. -/
def get_key_position (p : List Nat) (key : Nat) (start : Nat := 4) : Nat :=
  let cp := get_colon_position p key start
  if cp ≠ 0 then cp - 2 else 0

/-- `JsonTalkie.ValueType` (an IntEnum with members 0-3 in the source). -/
inductive ValueType where
  | string
  | integer
  | other
  | void
deriving DecidableEq, Repr

/-- The STRING scan of `get_value_type`: index of the next `"` byte at or
after `i`, or the length if the buffer ends first. -/
def quoteScanAux (p : List Nat) : Nat → Nat → Nat
  | i, 0 => i
  | i, fuelC + 1 =>
      if i < p.length then
        if p.getD i 0 = 34 then i else quoteScanAux p (i + 1) fuelC
      else i

def quoteScan (p : List Nat) (i : Nat) : Nat :=
  quoteScanAux p i (p.length - i)

/-- The INTEGER/OTHER scan of `get_value_type`: walk digits until `,` or
`}` (INTEGER), a non-digit (OTHER) or the end of the buffer (VOID). -/
def intScanAux (p : List Nat) : Nat → Nat → ValueType
  | _, 0 => ValueType.void
  | i, fuelC + 1 =>
      if i < p.length then
        let c := p.getD i 0
        if c = 44 ∨ c = 125 then ValueType.integer
        else if c < 48 ∨ 57 < c then ValueType.other
        else intScanAux p (i + 1) fuelC
      else ValueType.void

def intScan (p : List Nat) (i : Nat) : ValueType :=
  intScanAux p i (p.length - i)

/-- `JsonTalkie.get_value_type`. -/
def get_value_type (p : List Nat) (key : Nat) (start : Nat := 4) : ValueType :=
  let i := get_value_position p key start
  if i = 0 then ValueType.void
  else if p.getD i 0 = 34 then
    let j := quoteScan p (i + 1)
    if j = p.length then ValueType.void else ValueType.string
  else intScan p i

/-- The string-value length loop of `get_field_length`: count bytes until
the next `"` or the end. -/
def strCountAux (p : List Nat) : Nat → Nat → Nat
  | _, 0 => 0
  | i, fuelC + 1 =>
      if i < p.length then
        if p.getD i 0 = 34 then 0 else strCountAux p (i + 1) fuelC + 1
      else 0

def strCount (p : List Nat) (i : Nat) : Nat :=
  strCountAux p i (p.length - i)

/-- The digit-run length loop of `get_field_length`: count consecutive
decimal-digit bytes. -/
def digCountAux (p : List Nat) : Nat → Nat → Nat
  | _, 0 => 0
  | i, fuelC + 1 =>
      if i < p.length then
        if 48 ≤ p.getD i 0 ∧ p.getD i 0 ≤ 57 then
          digCountAux p (i + 1) fuelC + 1
        else 0
      else 0

def digCount (p : List Nat) (i : Nat) : Nat :=
  digCountAux p i (p.length - i)

/-- `JsonTalkie.get_field_length`: byte length of `"k":value` (quotes of a
string value included, separating comma excluded). -/
def get_field_length (p : List Nat) (key : Nat) (start : Nat := 4) : Nat :=
  let i := get_value_position p key start
  if i = 0 then 0
  else
    match get_value_type p key (i - 1) with
    | ValueType.string => 4 + 2 + strCount p (i + 1)
    | ValueType.integer => 4 + digCount p i
    | _ => 4

/-- The digit-accumulation loop of `get_number`. -/
def readNumAux (p : List Nat) : Nat → Nat → Nat → Nat
  | _, acc, 0 => acc
  | i, acc, fuelC + 1 =>
      if i < p.length then
        if 48 ≤ p.getD i 0 ∧ p.getD i 0 ≤ 57 then
          readNumAux p (i + 1) (acc * 10 + (p.getD i 0 - 48)) fuelC
        else acc
      else acc

def readNum (p : List Nat) (i : Nat) (acc : Nat) : Nat :=
  readNumAux p i acc (p.length - i)

/-- `JsonTalkie.get_number`: parse the decimal digits at the value position
of `key`; 0 when the key is absent. -/
def get_number (p : List Nat) (key : Nat) (start : Nat := 4) : Nat :=
  let i := get_value_position p key start
  if i ≠ 0 then readNum p i 0 else 0

/-- The in-place left-shift loop of `remove`:
`for i in range(fp, stop): p[i] = p[i + fl]`. -/
def shiftLeftAux : Nat → List Nat → Nat → Nat → Nat → List Nat
  | 0, p, _, _, _ => p
  | fuelC + 1, p, i, stop, fl =>
      if i < stop then
        shiftLeftAux fuelC (p.set i (p.getD (i + fl) 0)) (i + 1) stop fl
      else p

def shiftLeft (p : List Nat) (i stop fl : Nat) : List Nat :=
  shiftLeftAux (stop - i) p i stop fl

/-- `JsonTalkie.remove`: delete the field of `key` plus at most one adjacent
comma (preferring the leading one).  The source first runs the shift loop
and then additionally executes `del payload[fp:fp+fl]` on the already
shifted buffer; both steps are reproduced here.  Returns the buffer and the
`json_length` result (0 when the key was not found). -/
def remove (p : List Nat) (key : Nat) (start : Nat := 4) : List Nat × Nat :=
  let L := p.length
  let cp := get_colon_position p key start
  if cp = 0 then (p, 0)
  else
    let fp0 := cp - 3
    let fl0 := get_field_length p key cp
    let fpfl :=
      if 0 < fp0 ∧ p.getD (fp0 - 1) 0 = 44 then (fp0 - 1, fl0 + 1)
      else if fp0 + fl0 < L ∧ p.getD (fp0 + fl0) 0 = 44 then (fp0, fl0 + 1)
      else (fp0, fl0)
    let fp := fpfl.1
    let fl := fpfl.2
    let p1 := shiftLeft p fp (L - fl) fl
    let p2 := p1.take fp ++ p1.drop (fp + fl)
    (p2, L - fl)

/-- The digit-emission loop of `set_number` (`while n: append(48 + n % 10)`),
least significant digit first. -/
def toDigitsRevAux : Nat → Nat → List Nat
  | 0, _ => []
  | fuelC + 1, n =>
      if n = 0 then [] else (48 + n % 10) :: toDigitsRevAux fuelC (n / 10)

def toDigitsRev (n : Nat) : List Nat := toDigitsRevAux n n

/-- ASCII digits of `n`, most significant first; `0` is the single byte `48`,
exactly as `set_number` emits them. -/
def numDigitsBytes (n : Nat) : List Nat :=
  if n = 0 then [48] else (toDigitsRev n).reverse

/-- `JsonTalkie.set_number`: remove any existing field of `key`, then insert
`,"k":` before the final `}` (dropping the comma for an empty `{}`), then
insert the decimal digits before the final `}`.  Returns the resulting
buffer state (the source's `return 0` failure paths leave the buffer as
the preceding mutations produced it). -/
def set_number (p : List Nat) (key : Nat) (number : Nat) (start : Nat := 4) :
    List Nat :=
  let L := p.length
  let cp := get_colon_position p key start
  let pL := if cp ≠ 0 then remove p key cp else (p, L)
  let p1 := pL.1
  let L1 := pL.2
  if cp ≠ 0 ∧ L1 = 0 then p1
  else
    let jkey := [44, 34, key, 34, 58]
    if 2 < L1 then
      let p2 := p1.take (L1 - 1) ++ jkey ++ p1.drop (L1 - 1)
      p2.take (p2.length - 1) ++ numDigitsBytes number ++ p2.drop (p2.length - 1)
    else if L1 = 2 then
      let p2 := p1.take (L1 - 1) ++ [34, key, 34, 58] ++ p1.drop (L1 - 1)
      p2.take (p2.length - 1) ++ numDigitsBytes number ++ p2.drop (p2.length - 1)
    else [123, 125]

/-- The chunk loop of `generate_checksum`: XOR of consecutive 2-byte
big-endian chunks, a final odd byte occupying the high byte of a chunk. -/
def checksumLoopAux (p : List Nat) : Nat → Nat → Nat → Nat
  | _, acc, 0 => acc
  | i, acc, fuelC + 1 =>
      if i < p.length then
        let chunk := (p.getD i 0) <<< 8
        let chunk := if i + 1 < p.length then chunk ||| p.getD (i + 1) 0 else chunk
        checksumLoopAux p (i + 2) (acc ^^^ chunk) fuelC
      else acc

def checksumLoop (p : List Nat) (i acc : Nat) : Nat :=
  checksumLoopAux p i acc (p.length + 1 - i)

/-- `JsonTalkie.generate_checksum`. -/
def generate_checksum (p : List Nat) : Nat := checksumLoop p 0 0

/-- `JsonTalkie.insert_checksum`: checksum the buffer as given, then write
the value into a `c` field via `set_number`. -/
def insert_checksum (p : List Nat) : List Nat :=
  set_number p 99 (generate_checksum p) 4

/-- `JsonTalkie.message_id`: millisecond clock truncated to 16 bits
(`int(time.time() * 1000) & 0xFFFF`); the clock reading is a parameter. -/
def message_id (nowMs : Nat) : Nat := nowMs &&& 0xFFFF

/-- Framer state of `BroadcastSocket_Serial.receive`: the `_reading_serial`
flag and the accumulated bytes (`_received_buffer[:_received_length]`). -/
structure FramerState where
  reading : Bool
  buf : List Nat
deriving DecidableEq, Repr

/-- One byte through the framer: returns the next state and the completed
frame, if any.  Capacity is `BROADCAST_SOCKET_BUFFER_SIZE = 128`; a byte
arriving with the buffer full discards the partial frame silently. -/
def framerStep (st : FramerState) (c : Nat) : FramerState × Option (List Nat) :=
  if st.reading then
    if st.buf.length < 128 then
      if c = 125 ∧ st.buf.length ≠ 0 ∧ st.buf.getLast? ≠ some 92 then
        (⟨false, []⟩, some (st.buf ++ [125]))
      else
        (⟨true, st.buf ++ [c]⟩, none)
    else
      (⟨false, []⟩, none)
  else if c = 123 then
    (⟨true, [123]⟩, none)
  else
    (st, none)

/-- Feed a byte stream through the framer, collecting completed frames. -/
def runFramer (st : FramerState) : List Nat → FramerState × List (List Nat)
  | [] => (st, [])
  | c :: rest =>
      let (st1, out) := framerStep st c
      let (st2, frames) := runFramer st1 rest
      (st2, (out.toList) ++ frames)

/-! ## Protocol constants

Modelled from the spec: the module defining `TalkieKey`, `BroadcastValue`,
`MessageValue`, `RogerValue` and `ErrorValue` (imported by json_talkie.py
and talk.py) is not present under src/ — src/talkie_codes.py is an older
revision with different class names (`JsonKey`, `MessageData`, ...).  The
keys are the single-character wire keys of spec §3/§6 (matching the
literals `'c'`, `'m'`/`'M'` hard-coded in json_talkie.py and the older
`JsonKey`); the message codes are IntEnum values with every
original-request code below ECHO and NOISE the null code (§4.5, §4.5
Dispatch); roger codes ROGER/SAY_AGAIN/NEGATIVE per the glossary; error
kinds follow the older `ErrorData` enumeration, CHECKSUM = 2; the
broadcast-origin tag has members REMOTE and SELF. -/
def kCHECKSUM : Nat := 99
def kIDENTITY : Nat := 105
def kTIMESTAMP : Nat := 105
def kMESSAGE : Nat := 109
def kFROM : Nat := 102
def kTO : Nat := 116
def kERROR : Nat := 101
def kVALUE : Nat := 118
def kROGER : Nat := 103
def kACTION : Nat := 97
def kBROADCAST : Nat := 98

def mNOISE : Int := 0
def mCALL : Int := 1
def mLIST : Int := 2
def mTALK : Int := 3
def mCHANNEL : Int := 4
def mPING : Int := 5
def mSYSTEM : Int := 6
def mECHO : Int := 7
def mERROR : Int := 8

def rROGER : Int := 0
def rSAY_AGAIN : Int := 1
def rNEGATIVE : Int := 2

def eCHECKSUM : Int := 2

def bREMOTE : Int := 0
def bSELF : Int := 1

/-- Python subscript `message[k]`: `KeyError` when the key is absent. -/
def subscript (m : Msg) (k : Nat) : Except PyExc JVal :=
  match mlookup m k with
  | none => Except.error PyExc.keyError
  | some v => Except.ok v

/-- Using a value in integer arithmetic or an ordered comparison with an
integer: `TypeError` for text. -/
def asInt (v : JVal) : Except PyExc Int :=
  match v with
  | JVal.int n => Except.ok n
  | JVal.str _ => Except.error PyExc.typeError

/-- `MessageValue(x)`: IntEnum lookup by value, `ValueError` outside the
member range 0-8 (modelled range, see the constants above). -/
def messageValueCast (v : JVal) : Except PyExc Int :=
  match v with
  | JVal.int n => if 0 ≤ n ∧ n ≤ 8 then Except.ok n else Except.error PyExc.valueError
  | JVal.str _ => Except.error PyExc.valueError

/-- `BroadcastValue(x)`: members REMOTE and SELF, `ValueError` otherwise. -/
def broadcastValueCast (v : JVal) : Except PyExc Int :=
  match v with
  | JVal.int n => if n = bREMOTE ∨ n = bSELF then Except.ok n else Except.error PyExc.valueError
  | JVal.str _ => Except.error PyExc.valueError

/-- `JsonTalkie.getMessageData` (lines 61-66): `message.get(key)`, then
`MessageValue(...)` of the value when present. -/
def getMessageData (m : Msg) (k : Nat) : Except PyExc (Option Int) :=
  match mlookup m k with
  | none => Except.ok none
  | some v => (messageValueCast v).map some

/-- A `run`-table entry: description plus the capability callable, which
receives the message dict and returns its boolean result together with the
message as it leaves the call (the callable may attach extra payload). -/
structure RunEntry where
  descr : List Nat
  fn : Msg → Bool × Msg

/-- The manifesto (spec §3 CapabilityTable): talker identity, optional
`run`/`set`/`get` groups, and the presence of the `echo`/`error` callbacks
(the callbacks are outward-facing observers; the engine ignores their
results, so presence flags model them). -/
structure Manifesto where
  talkerName : List Nat
  talkerDescr : List Nat
  run : Option (List (List Nat × RunEntry))
  setT : Option (List (List Nat × List Nat))
  getT : Option (List (List Nat × List Nat))
  hasEcho : Bool
  hasError : Bool

/-- `message['a'] in self._manifesto['run']`: a Python string-keyed dict,
so only a text action value can match. -/
def runLookup : List (List Nat × RunEntry) → JVal → Option RunEntry
  | [], _ => none
  | (nm, e) :: rest, v => if v = JVal.str nm then some e else runLookup rest v

/-- Mutable engine state of `JsonTalkie.__init__`: channel, the original
and recoverable message slots, the active flag, the last received original
code and the per-peer address cache. -/
structure ES where
  channel : Int
  original : Msg
  recoverable : Msg
  active : Bool
  received : Int
  devices : List (JVal × Nat)
deriving DecidableEq, Repr

/-- Fresh engine state (`__init__`): empty slots, channel 0, inactive. -/
def initES : ES := ⟨0, [], [], false, 0, []⟩

/-- Environment: the manifesto, the platform string (for SYSTEM replies)
and the millisecond clock reading used by `message_id()`. -/
structure Env where
  mf : Manifesto
  platform : List Nat
  now : Nat

/-- `self._devices_address[name] = ip_port`. -/
def dset : List (JVal × Nat) → JVal → Nat → List (JVal × Nat)
  | [], k, a => [(k, a)]
  | (k0, a0) :: rest, k, a =>
      if k0 = k then (k0, a) :: rest else (k0, a0) :: dset rest k a

/-- `JsonTalkie.remoteSend`: tag as REMOTE, write `from` (swapping a
foreign `from` into `to`), add a fresh identity when absent — recording the
original/recoverable slots in that case — then encode, insert the checksum
and send (directly when the `to` peer is cached, else broadcast; both are a
single transmission, recorded here as the message snapshot).  Returns the
updated state, the mutated message, the transmissions and the send result
(transport success is modelled as `true`). -/
def remoteSend (env : Env) (s : ES) (msg : Msg) :
    Except PyExc (ES × Msg × List Msg × Bool) := do
  let m1 := mset msg kBROADCAST (JVal.int bREMOTE)
  let m2 :=
    match mlookup m1 kFROM with
    | some fv =>
        if fv ≠ JVal.str env.mf.talkerName then
          mset (mset m1 kTO fv) kFROM (JVal.str env.mf.talkerName)
        else m1
    | none => mset m1 kFROM (JVal.str env.mf.talkerName)
  if mhas m2 kIDENTITY then
    pure (s, m2, [m2], true)
  else do
    let m3 := mset m2 kIDENTITY (JVal.int (message_id env.now))
    let mv ← asInt (← subscript m3 kMESSAGE)
    let s1 := if mv < mECHO then { s with original := m3 } else s
    let s2 :=
      if mv ≠ mNOISE then { s1 with recoverable := m3, active := true } else s1
    pure (s2, m3, [m3], true)

/-- The PING round-trip attachment shared by `listen` (lines 105-113) and
`hereSend` (lines 190-198): when the outstanding original is a PING,
compute `message_id() - message['i']` with uint16 wraparound and store it
under the extra-payload key `"0"` unless already present. -/
def attachPingDelay (env : Env) (s : ES) (msg : Msg) : Except PyExc Msg := do
  let od ← getMessageData s.original kMESSAGE
  if od = some mPING then do
    let out ← asInt (← subscript msg kTIMESTAMP)
    let delay : Int := (message_id env.now : Int) - out
    let delay := if delay < 0 then delay + 65536 else delay
    pure (if ¬ mhas msg 48 then mset msg 48 (JVal.int delay) else msg)
  else pure msg

mutual

/-- `JsonTalkie.transmitMessage`: route on the broadcast-origin tag
(default REMOTE); SELF loops back through `hereSend`. -/
def transmitMessage (fuel : Nat) (env : Env) (s : ES) (msg : Msg) :
    Except PyExc (ES × Msg × List Msg × Bool) :=
  match fuel with
  | 0 => Except.error PyExc.fuel
  | fuel + 1 => do
    let code ← broadcastValueCast ((mlookup msg kBROADCAST).getD (JVal.int bREMOTE))
    if code = bSELF then hereSend fuel env s msg
    else remoteSend env s msg
termination_by structural fuel

/-- `JsonTalkie.hereSend`: tag as SELF, add an identity when absent
(recording the original slot for request codes), attach the PING delay to
an ECHO, then dispatch locally without touching the transport. -/
def hereSend (fuel : Nat) (env : Env) (s : ES) (msg : Msg) :
    Except PyExc (ES × Msg × List Msg × Bool) :=
  match fuel with
  | 0 => Except.error PyExc.fuel
  | fuel + 1 => do
    let m1 := mset msg kBROADCAST (JVal.int bSELF)
    let sm ←
      (if mhas m1 kIDENTITY then pure (s, m1)
       else do
        let m2 := mset m1 kIDENTITY (JVal.int (message_id env.now))
        let mv ← asInt (← subscript m2 kMESSAGE)
        pure (if mv < mECHO then ({ s with original := m2 }, m2) else (s, m2)))
    let s1 := sm.1
    let m2 := sm.2
    let mraw ← subscript m2 kMESSAGE
    let m3 ←
      (if mraw = JVal.int mECHO then attachPingDelay env s1 m2 else pure m2)
    processMessage fuel env s1 m3
termination_by structural fuel

/-- The LIST emission loop (lines 239-253): for each table entry set the
action name and the description payload and transmit one ECHO. -/
def listEmit (fuel : Nat) (env : Env) (s : ES) (msg : Msg)
    (entries : List (List Nat × List Nat)) :
    Except PyExc (ES × Msg × List Msg) :=
  match fuel with
  | 0 => Except.error PyExc.fuel
  | fuel + 1 =>
    match entries with
    | [] => pure (s, msg, [])
    | (nm, ds) :: rest => do
        let m1 := mset (mset msg kACTION (JVal.str nm)) 48 (JVal.str ds)
        let r ← transmitMessage fuel env s m1
        let rr ← listEmit fuel env r.1 r.2.1 rest
        pure (rr.1, rr.2.1, r.2.2.1 ++ rr.2.2)
termination_by structural fuel

/-- `JsonTalkie.processMessage` (lines 211-302): cast the message code,
remember and rewrite an original request to ECHO, then dispatch. -/
def processMessage (fuel : Nat) (env : Env) (s : ES) (msg : Msg) :
    Except PyExc (ES × Msg × List Msg × Bool) :=
  match fuel with
  | 0 => Except.error PyExc.fuel
  | fuel + 1 => do
    let md ← messageValueCast (← subscript msg kMESSAGE)
    let sm :=
      if md < mECHO then
        ({ s with received := md }, mset msg kMESSAGE (JVal.int mECHO))
      else (s, msg)
    let s1 := sm.1
    let msg1 := sm.2
    if md = mCALL then
      if mhas msg1 kACTION ∧ env.mf.run.isSome then
        match runLookup (env.mf.run.getD []) ((mlookup msg1 kACTION).getD (JVal.int 0)) with
        | some entry => do
            let (s2, m2, sends1, _) ← transmitMessage fuel env s1 msg1
            let fr := entry.fn m2
            let m3 := mset fr.2 kROGER
              (JVal.int (if fr.1 then rROGER else rNEGATIVE))
            let (s3, m4, sends2, res) ← transmitMessage fuel env s2 m3
            pure (s3, m4, sends1 ++ sends2, res)
        | none => do
            let m2 := mset msg1 kROGER (JVal.int rSAY_AGAIN)
            let (s2, m3, sends1, _) ← transmitMessage fuel env s1 m2
            pure (s2, m3, sends1, false)
      else pure (s1, msg1, [], false)
    else if md = mLIST then do
      let (s2, m2, sends1) ←
        match env.mf.run with
        | some tbl => listEmit fuel env s1 msg1 (tbl.map (fun e => (e.1, e.2.descr)))
        | none => pure (s1, msg1, ([] : List Msg))
      let (s3, m3, sends2) ←
        match env.mf.setT with
        | some tbl => listEmit fuel env s2 m2 tbl
        | none => pure (s2, m2, ([] : List Msg))
      let (s4, m4, sends3) ←
        match env.mf.getT with
        | some tbl => listEmit fuel env s3 m3 tbl
        | none => pure (s3, m3, ([] : List Msg))
      pure (s4, m4, sends1 ++ sends2 ++ sends3, true)
    else if md = mTALK then do
      let m2 := mset msg1 48 (JVal.str env.mf.talkerDescr)
      transmitMessage fuel env s1 m2
    else if md = mCHANNEL then
      match mlookup msg1 kVALUE with
      | some (JVal.int v) => transmitMessage fuel env { s1 with channel := v } msg1
      | _ => transmitMessage fuel env s1 (mset msg1 kVALUE (JVal.int s1.channel))
    else if md = mPING then
      transmitMessage fuel env s1 msg1
    else if md = mSYSTEM then do
      let m2 := mset msg1 48 (JVal.str env.platform)
      transmitMessage fuel env s1 m2
    else if md = mECHO then
      if env.mf.hasEcho then do
        let _mid ← subscript msg1 kIDENTITY
        pure (s1, msg1, [], false)
      else pure (s1, msg1, [], false)
    else if md = mERROR then
      pure (s1, msg1, [], false)
    else
      pure (s1, msg1, [], false)
termination_by structural fuel

end

/-- The dict comprehension of listen line 130:
`{'M' if k == 'm' else k: v for k, v in recoverable.items()}` — rebuild the
dict in order, renaming the message key `m` (109) to `M` (77). -/
def renameRecoverable (r : Msg) : Msg :=
  r.foldl (fun acc kv => mset acc (if kv.1 = kMESSAGE then 77 else kv.1) kv.2) []

/-- The ERROR branch of `listen` (lines 116-131): default the error kind to
CHECKSUM, and on kind CHECKSUM read the recoverable message's identity
(an unguarded subscript — `KeyError` when the slot mapping is empty); when
the slot is active and the inbound identity is absent or matches, drop the
active flag if a previous resend already renamed `m` to `M`, rename, and
resend the recoverable message via `remoteSend` (which the slot aliases). -/
def handleError (env : Env) (s : ES) (msg : Msg) :
    Except PyExc (ES × Msg × List Msg) := do
  let msg := if ¬ mhas msg kERROR then mset msg kERROR (JVal.int eCHECKSUM) else msg
  let od ← getMessageData msg kERROR
  if od = some eCHECKSUM then do
    let oid ← subscript s.recoverable kIDENTITY
    if s.active ∧ (¬ mhas msg kIDENTITY ∨ mlookup msg kIDENTITY = some oid) then do
      let s1 := if mhas s.recoverable 77 then { s with active := false } else s
      let r := renameRecoverable s1.recoverable
      let (s2, r1, sends, _) ← remoteSend env { s1 with recoverable := r } r
      pure ({ s2 with recoverable := r1 }, msg, sends)
    else pure (s, msg, [])
  else pure (s, msg, [])

/-- Modelled from the spec: `MessageCodec.decode` is `json.loads` applied by
`JsonTalkie.decode` inside `listen`; the stdlib parser itself is outside
the repository.  The model accepts the protocol's wire fragment (§4.4, §6):
a compact flat JSON object with single-character keys and unsigned-integer
or printable-ASCII text values (`"` and `\` backslash-escaped).  Any buffer
outside this fragment — including non-UTF-8 input — is a decode failure,
which the receive loop drops (`decode` returns `None` on a JSON error and
`listen` catches the Unicode error; both end as a dropped frame). -/
def parseDigitsAux : List Nat → Nat → Nat × List Nat
  | [], acc => (acc, [])
  | c :: rest, acc =>
      if 48 ≤ c ∧ c ≤ 57 then parseDigitsAux rest (acc * 10 + (c - 48))
      else (acc, c :: rest)

/-- String-body scanner of the decode model: consume until the closing
quote, accepting `\"` and `\\` escapes and printable ASCII. -/
def parseStrBody : List Nat → Option (List Nat × List Nat)
  | [] => none
  | 34 :: rest => some ([], rest)
  | 92 :: c :: rest =>
      if c = 34 ∨ c = 92 then
        (parseStrBody rest).map (fun pr => (c :: pr.1, pr.2))
      else none
  | [92] => none
  | c :: rest =>
      if 32 ≤ c ∧ c < 127 then
        (parseStrBody rest).map (fun pr => (c :: pr.1, pr.2))
      else none

/-- Value scanner of the decode model: an unsigned decimal integer or a
quoted string. -/
def parseVal : List Nat → Option (JVal × List Nat)
  | [] => none
  | 34 :: rest => (parseStrBody rest).map (fun pr => (JVal.str pr.1, pr.2))
  | c :: rest =>
      if 48 ≤ c ∧ c ≤ 57 then
        let nr := parseDigitsAux (c :: rest) 0
        some (JVal.int nr.1, nr.2)
      else none

/-- Field list scanner of the decode model; later duplicate keys overwrite
like `json.loads` building a dict. -/
def parseFields : Nat → List Nat → Msg → Option Msg
  | 0, _, _ => none
  | fuelP + 1, l, acc =>
      match l with
      | 34 :: k :: 34 :: 58 :: rest =>
          if 32 ≤ k ∧ k < 127 ∧ k ≠ 34 ∧ k ≠ 92 then
            match parseVal rest with
            | some (v, r2) =>
                match r2 with
                | 44 :: more => parseFields fuelP more (mset acc k v)
                | [125] => some (mset acc k v)
                | _ => none
            | none => none
          else none
      | _ => none

/-- `JsonTalkie.decode` under the model above: `none` is a dropped frame. -/
def decode (p : List Nat) : Option Msg :=
  if p.all (fun b => b < 128) then
    match p with
    | [123, 125] => some []
    | 123 :: rest => parseFields (p.length + 1) rest []
    | _ => none
  else none

/-- `JsonTalkie.validate_message` (lines 305-321), for the local channel
number and talker name: any message carrying the checksum key is rejected;
otherwise an integer message code, an identity, and — when `to` is present —
agreement with the channel (integer `to`) or the talker name (text `to`)
are required.  The `none` argument is `decode` returning `None`, which
fails the `isinstance(message, dict)` test. -/
def validate_message (ch : Int) (name : List Nat) (m : Option Msg) : Bool :=
  match m with
  | none => false
  | some msg =>
      if mhas msg kCHECKSUM then false
      else if ¬ mhas msg kMESSAGE then false
      else
        match mlookup msg kMESSAGE with
        | some (JVal.int _) =>
            if ¬ mhas msg kIDENTITY then false
            else
              match mlookup msg kTO with
              | none => true
              | some (JVal.int t) => decide (t = ch)
              | some (JVal.str t) => decide (t = name)
        | _ => false

/-- The age expression of listen line 74:
`(message_id() - stored_identity) & 0xFFFF`, Python's nonnegative masking
of a possibly negative difference, i.e. subtraction modulo 2^16. -/
def ageExpr (nowId stored : Int) : Int := (nowId - stored) % 65536

/-- The RetrySlot timeout at the top of each receive-loop iteration
(lines 71-75): with an active slot, read its identity and clear the flag
when the wrapped age exceeds 500. -/
def retryStep (env : Env) (s : ES) : Except PyExc ES := do
  if s.active then do
    let idn ← asInt (← subscript s.recoverable kIDENTITY)
    if 500 < ageExpr ((message_id env.now : Int)) idn then
      pure { s with active := false }
    else pure s
  else pure s

/-- The body of one received frame after the checksum strip (listen lines
97-139): decode, validate, run the ECHO/ERROR pre-dispatch branches, record
the sender's address, dispatch.  A `decode` failure fails validation and
drops the frame. -/
def listenAfterStrip (fuel : Nat) (env : Env) (s : ES) (stripped : List Nat)
    (addr : Nat) : Except PyExc (ES × List Msg) := do
  match decode stripped with
  | none => pure (s, [])
  | some msg =>
      if validate_message s.channel env.mf.talkerName (some msg) then do
        let mraw := mlookup msg kMESSAGE
        let ms ←
          (if mraw = some (JVal.int mECHO) then do
            let m1 ← attachPingDelay env s msg
            pure (s, m1, ([] : List Msg))
           else if mraw = some (JVal.int mERROR) then do
            let r ← handleError env s msg
            pure r
           else pure (s, msg, ([] : List Msg)))
        let s1 := ms.1
        let m1 := ms.2.1
        let sends1 := ms.2.2
        let s2 :=
          match mlookup m1 kFROM with
          | some fv => { s1 with devices := dset s1.devices fv addr }
          | none => s1
        let (s3, _, sends2, _) ← processMessage fuel env s2 m1
        pure (s3, sends1 ++ sends2)
      else pure (s, [])

/-- One iteration of `JsonTalkie.listen` for one received frame: the
RetrySlot timeout, then the checksum read/strip/recompute of lines 87-96
(whose mismatch is only printed when verbose — lines 90-93 are `pass`),
then the decode/validate/dispatch body.  An `Except.error` result is an
exception the loop's `except` clause (decode errors only) does not catch:
the receive loop terminates. -/
def listenIteration (fuel : Nat) (env : Env) (s : ES) (data : List Nat)
    (addr : Nat) : Except PyExc (ES × List Msg) := do
  let s1 ← retryStep env s
  let _message_checksum := get_number data kCHECKSUM 4
  let stripped := (remove data kCHECKSUM 4).1
  let _checksum := generate_checksum stripped
  listenAfterStrip fuel env s1 stripped addr

/-- `json.dumps` byte emission for one text value: quote and backslash are
escaped; the engine's values are printable ASCII (modelled fragment). -/
def escBytes : List Nat → List Nat
  | [] => []
  | c :: rest => (if c = 34 ∨ c = 92 then [92, c] else [c]) ++ escBytes rest

/-- `json.dumps` of one value. -/
def encVal : JVal → List Nat
  | JVal.int n =>
      if n < 0 then 45 :: numDigitsBytes n.natAbs else numDigitsBytes n.toNat
  | JVal.str s => 34 :: escBytes s ++ [34]

/-- `json.dumps` of the fields, comma-separated. -/
def encFields : Msg → List Nat
  | [] => []
  | (k, v) :: rest =>
      [34, k, 34, 58] ++ encVal v ++
      (if rest = [] then [] else [44]) ++ encFields rest

/-- `JsonTalkie.encode`: `json.dumps(message, separators=(',', ':'))` as
UTF-8 bytes, in dict insertion order. -/
def encode (m : Msg) : List Nat := 123 :: encFields m ++ [125]

/-- `JsonTalkie.valid_checksum` (lines 346-367): remember the claimed
checksum (0 when absent), set the checksum key to 0, encode, XOR-fold
masked to 16 bits, store the computed value back, and compare.  Returns
the verdict and the message as mutated. -/
def valid_checksum (m : Msg) : Bool × Msg :=
  let claimed := (mlookup m kCHECKSUM).getD (JVal.int 0)
  let m0 := mset m kCHECKSUM (JVal.int 0)
  let cs := generate_checksum (encode m0) &&& 0xFFFF
  (claimed = JVal.int cs, mset m0 kCHECKSUM (JVal.int cs))

/-- The four-byte window tested by `colonScan` at index `i`. -/
abbrev winAt (p : List Nat) (key i : Nat) : Prop :=
  p.getD i 0 = 58 ∧ p.getD (i - 2) 0 = key ∧
    p.getD (i - 3) 0 = 34 ∧ p.getD (i - 1) 0 = 34

/-- The layout `set_number` produces when appending a fresh `c` field to a
`}`-terminated buffer: base without its final brace, `,"c":`, the decimal
digits, the closing brace. -/
def csShape (b : List Nat) (n : Nat) : List Nat :=
  b.dropLast ++ [44, 34, 99, 34, 58] ++ numDigitsBytes n ++ [125]

/-- A minimal manifesto: talker `A`, no capability groups, no callbacks. -/
def mfPlain : Manifesto :=
  { talkerName := [65], talkerDescr := [100], run := none, setT := none,
    getT := none, hasEcho := false, hasError := false }

/-- Environment over `mfPlain` at clock reading `now`. -/
def envPlain (now : Nat) : Env := { mf := mfPlain, platform := [79, 83], now := now }

/-- The wire frame `{"m":8,"i":1}`: an ERROR-coded message with identity 1
and no error-kind field. -/
def c1Frame : List Nat := [123, 34, 109, 34, 58, 56, 44, 34, 105, 34, 58, 49, 125]

/-- The buffer `{"a":1,"c":2,"z":3,"w":4}`: a well-formed compact object
whose `c` field sits between other fields. -/
def c7buf : List Nat :=
  [123, 34, 97, 34, 58, 49, 44, 34, 99, 34, 58, 50, 44, 34, 122, 34, 58, 51,
   44, 34, 119, 34, 58, 52, 125]

/-- What `remove` actually returns on `c7buf`: `{"a":1,"w":4}"w":4}`. -/
def c7corrupt : List Nat :=
  [123, 34, 97, 34, 58, 49, 44, 34, 119, 34, 58, 52, 125, 34, 119, 34, 58,
   52, 125]

/-- The spec-intended removal result `{"a":1,"z":3,"w":4}`. -/
def c7expected : List Nat :=
  [123, 34, 97, 34, 58, 49, 44, 34, 122, 34, 58, 51, 44, 34, 119, 34, 58,
   52, 125]

/-- The text value `"c":` (bytes of the four characters quote, c, quote,
colon). -/
def c10tval : List Nat := [34, 99, 34, 58]

/-- The encoding of the message with text value `"c":` under key `t` and
integer value 5 under key `c`: `{"t":"\"c\":","c":5}` — the value's quotes
are backslash-escaped by the encoder. -/
def c10enc : List Nat :=
  [123, 34, 116, 34, 58, 34, 92, 34, 99, 92, 34, 58, 34, 44, 34, 99, 34, 58,
   53, 125]

/-- `c10enc` with its real `c` field removed: `{"t":"\"c\":"}`. -/
def c10encRemoved : List Nat :=
  [123, 34, 116, 34, 58, 34, 92, 34, 99, 92, 34, 58, 34, 125]

/-- The buffer `{"a":{"c":1},"c":7}` whose nested structured value contains
the `"c":` byte window. -/
def c10nested : List Nat :=
  [123, 34, 97, 34, 58, 123, 34, 99, 34, 58, 49, 125, 44, 34, 99, 34, 58,
   55, 125]

/-- The spec-intended removal of the real `c` field from `c10nested`:
`{"a":{"c":1}}`. -/
def c10nestedGood : List Nat :=
  [123, 34, 97, 34, 58, 123, 34, 99, 34, 58, 49, 125, 125]

/-- What `remove` actually returns on `c10nested`: `{"a":{:7}c":7}`. -/
def c10nestedBad : List Nat :=
  [123, 34, 97, 34, 58, 123, 58, 55, 125, 99, 34, 58, 55, 125]

/-- The byte stream `ab{"m":1,"t":"*"}cd`. -/
def c9stream : List Nat :=
  [97, 98, 123, 34, 109, 34, 58, 49, 44, 34, 116, 34, 58, 34, 42, 34, 125,
   99, 100]

/-- The single frame contained in `c9stream`: `{"m":1,"t":"*"}`. -/
def c9frame : List Nat :=
  [123, 34, 109, 34, 58, 49, 44, 34, 116, 34, 58, 34, 42, 34, 125]

/-- A message carrying a correct checksum field: `{"c":23350,"m":7,"i":1}`,
whose claimed checksum 23350 is exactly the engine's own dict-level
verification value (`valid_checksum` holds). -/
def c5msg : Msg := [(99, JVal.int 23350), (109, JVal.int 7), (105, JVal.int 1)]

/-- The outbound CALL message `{"m":1,"a":"x","t":"B"}` that establishes the
RetrySlot. -/
def c3callMsg : Msg := [(109, JVal.int 1), (97, JVal.str [120]), (116, JVal.str [66])]

/-- The stored recoverable message after the initial send (identity 1000,
from `A`). -/
def c3slot0 : Msg :=
  [(109, JVal.int 1), (97, JVal.str [120]), (116, JVal.str [66]),
   (98, JVal.int 0), (102, JVal.str [65]), (105, JVal.int 1000)]

/-- `c3slot0` after the resend renaming of `m` to `M`. -/
def c3slotMC : Msg :=
  [(77, JVal.int 1), (97, JVal.str [120]), (116, JVal.str [66]),
   (98, JVal.int 0), (102, JVal.str [65]), (105, JVal.int 1000)]

/-- The wire frame `{"m":8,"e":2,"i":1000}`: an ERROR message with error
kind CHECKSUM and the slot's identity. -/
def c3errFrame : List Nat :=
  [123, 34, 109, 34, 58, 56, 44, 34, 101, 34, 58, 50, 44, 34, 105, 34, 58,
   49, 48, 48, 48, 125]

/-- Engine state after the initial send: active slot holding `c3slot0`. -/
def c3es1 : ES := ⟨0, c3slot0, c3slot0, true, 0, []⟩

/-- Engine state after the first resend: still active, slot renamed. -/
def c3es2 : ES := ⟨0, c3slot0, c3slotMC, true, 0, []⟩

/-- Engine state after the second resend: slot cleared. -/
def c3es3 : ES := ⟨0, c3slot0, c3slotMC, false, 0, []⟩

/-- A RetrySlot message as `remoteSend` stores it: message code `mv`,
REMOTE tag, own talker name as `from`, identity `idv`. -/
def c3slot (name : List Nat) (mv idv : Int) : Msg :=
  [(109, JVal.int mv), (98, JVal.int 0), (102, JVal.str name), (105, JVal.int idv)]

/-- `c3slot` after the ERROR-branch renaming of key `m` (109) to `M` (77). -/
def c3slotM (name : List Nat) (mv idv : Int) : Msg :=
  [(77, JVal.int mv), (98, JVal.int 0), (102, JVal.str name), (105, JVal.int idv)]

/-- An inbound ERROR message with error kind CHECKSUM and no identity. -/
def c3errMsg : Msg := [(109, JVal.int 8), (101, JVal.int 2)]

/-- A validated inbound CALL request naming action `a`, with identity `idv`
and sender name `frm`. -/
def c6msg (a frm : List Nat) (idv : Int) : Msg :=
  [(109, JVal.int 1), (97, JVal.str a), (105, JVal.int idv), (102, JVal.str frm)]

/-- The immediate acknowledgment ECHO of a known CALL: message code ECHO,
no roger field, addressed back to the sender. -/
def c6ackMsg (a frm name : List Nat) (idv : Int) : Msg :=
  [(109, JVal.int 7), (97, JVal.str a), (105, JVal.int idv),
   (102, JVal.str name), (98, JVal.int 0), (116, JVal.str frm)]

/-- The second ECHO of a successful CALL, carrying roger-code ROGER (0). -/
def c6rogerMsg (a frm name : List Nat) (idv : Int) : Msg :=
  [(109, JVal.int 7), (97, JVal.str a), (105, JVal.int idv),
   (102, JVal.str name), (98, JVal.int 0), (116, JVal.str frm),
   (103, JVal.int 0)]

/-- The single ECHO of an unknown CALL, carrying roger-code SAY_AGAIN (1). -/
def c6sayAgainMsg (a frm name : List Nat) (idv : Int) : Msg :=
  [(109, JVal.int 7), (97, JVal.str a), (105, JVal.int idv),
   (102, JVal.str name), (103, JVal.int 1), (98, JVal.int 0),
   (116, JVal.str frm)]

/-- The checksum-free frame body `{"m":7,"i":5}`. -/
def c2base : List Nat := [123, 34, 109, 34, 58, 55, 44, 34, 105, 34, 58, 53, 125]

/-- The frame `{"m":7,"i":5,"c":<n>}` claiming checksum value `n`. -/
def c2Frame (n : Nat) : List Nat := csShape c2base n

/-- The checksum-free TALK frame body `{"m":3,"i":5}`. -/
def c2talkBase : List Nat :=
  [123, 34, 109, 34, 58, 51, 44, 34, 105, 34, 58, 53, 125]

/-- The TALK frame `{"m":3,"i":5,"c":1}` with the bogus claimed checksum 1
(the locally computed checksum of the stripped body is 11782). -/
def c2talkFrame : List Nat := csShape c2talkBase 1

/-- The reply the engine transmits for the TALK frame: the message turned
into an ECHO (`m` set to 7) carrying the talker description under key `0`,
broadcast kind REMOTE and the talker name in `f`. -/
def c2talkReply : Msg :=
  [(109, JVal.int 7), (105, JVal.int 5), (48, JVal.str [100]),
   (98, JVal.int 0), (102, JVal.str [65])]

/-- The checksum-free buffer `{"m":5,"i":1}`. -/
def c4b0 : List Nat := [123, 34, 109, 34, 58, 53, 44, 34, 105, 34, 58, 49, 125]

/-- `insert_checksum c4b0`: the sent buffer `{"m":5,"i":1,"c":11780}`. -/
def c4b1 : List Nat :=
  [123, 34, 109, 34, 58, 53, 44, 34, 105, 34, 58, 49, 44, 34, 99, 34, 58,
   49, 49, 55, 56, 48, 125]

/-- `c4b1` with every checksum digit replaced by `0`:
`{"m":5,"i":1,"c":00000}`. -/
def c4zd : List Nat :=
  [123, 34, 109, 34, 58, 53, 44, 34, 105, 34, 58, 49, 44, 34, 99, 34, 58,
   48, 48, 48, 48, 48, 125]

/-- `c4b1` with the checksum value replaced by a single `0`:
`{"m":5,"i":1,"c":0}`. -/
def c4zs : List Nat :=
  [123, 34, 109, 34, 58, 53, 44, 34, 105, 34, 58, 49, 44, 34, 99, 34, 58,
   48, 125]

theorem colonScan_eq (p : List Nat) (key i : Nat) :
    colonScan p key i =
      if i < p.length then
        if p.getD i 0 = 58 ∧ p.getD (i - 2) 0 = key ∧
            p.getD (i - 3) 0 = 34 ∧ p.getD (i - 1) 0 = 34 then
          i
        else
          colonScan p key (i + 1)
      else 0 := by
  unfold colonScan
  by_cases h : i < p.length
  · rw [show p.length - i = (p.length - (i + 1)) + 1 from by omega]
    rw [colonScanAux, if_pos h]
  · rw [show p.length - i = 0 from by omega]
    rw [colonScanAux, if_neg h]

theorem quoteScan_eq (p : List Nat) (i : Nat) :
    quoteScan p i =
      if i < p.length then
        if p.getD i 0 = 34 then i else quoteScan p (i + 1)
      else i := by
  unfold quoteScan
  by_cases h : i < p.length
  · rw [show p.length - i = (p.length - (i + 1)) + 1 from by omega]
    rw [quoteScanAux, if_pos h]
  · rw [show p.length - i = 0 from by omega]
    rw [quoteScanAux, if_neg h]

theorem intScan_eq (p : List Nat) (i : Nat) :
    intScan p i =
      if i < p.length then
        if p.getD i 0 = 44 ∨ p.getD i 0 = 125 then ValueType.integer
        else if p.getD i 0 < 48 ∨ 57 < p.getD i 0 then ValueType.other
        else intScan p (i + 1)
      else ValueType.void := by
  unfold intScan
  by_cases h : i < p.length
  · rw [show p.length - i = (p.length - (i + 1)) + 1 from by omega]
    rw [intScanAux, if_pos h]
  · rw [show p.length - i = 0 from by omega]
    rw [intScanAux, if_neg h]

theorem strCount_eq (p : List Nat) (i : Nat) :
    strCount p i =
      if i < p.length then
        if p.getD i 0 = 34 then 0 else strCount p (i + 1) + 1
      else 0 := by
  unfold strCount
  by_cases h : i < p.length
  · rw [show p.length - i = (p.length - (i + 1)) + 1 from by omega]
    rw [strCountAux, if_pos h]
  · rw [show p.length - i = 0 from by omega]
    rw [strCountAux, if_neg h]

theorem digCount_eq (p : List Nat) (i : Nat) :
    digCount p i =
      if i < p.length then
        if 48 ≤ p.getD i 0 ∧ p.getD i 0 ≤ 57 then digCount p (i + 1) + 1 else 0
      else 0 := by
  unfold digCount
  by_cases h : i < p.length
  · rw [show p.length - i = (p.length - (i + 1)) + 1 from by omega]
    rw [digCountAux, if_pos h]
  · rw [show p.length - i = 0 from by omega]
    rw [digCountAux, if_neg h]

theorem readNum_eq (p : List Nat) (i acc : Nat) :
    readNum p i acc =
      if i < p.length then
        if 48 ≤ p.getD i 0 ∧ p.getD i 0 ≤ 57 then
          readNum p (i + 1) (acc * 10 + (p.getD i 0 - 48))
        else acc
      else acc := by
  unfold readNum
  by_cases h : i < p.length
  · rw [show p.length - i = (p.length - (i + 1)) + 1 from by omega]
    rw [readNumAux, if_pos h]
  · rw [show p.length - i = 0 from by omega]
    rw [readNumAux, if_neg h]

theorem shiftLeft_eq (p : List Nat) (i stop fl : Nat) :
    shiftLeft p i stop fl =
      if i < stop then shiftLeft (p.set i (p.getD (i + fl) 0)) (i + 1) stop fl
      else p := by
  unfold shiftLeft
  by_cases h : i < stop
  · rw [show stop - i = (stop - (i + 1)) + 1 from by omega]
    rw [shiftLeftAux, if_pos h]
  · rw [show stop - i = 0 from by omega]
    rw [shiftLeftAux, if_neg h]

theorem toDigitsRevAux_mono : ∀ f1 f2 n, n ≤ f1 → n ≤ f2 →
    toDigitsRevAux f1 n = toDigitsRevAux f2 n := by
  intro f1
  induction f1 with
  | zero =>
      intro f2 n h1 _
      cases f2 with
      | zero => rfl
      | succ f2 =>
          rw [toDigitsRevAux, toDigitsRevAux, if_pos (by omega)]
  | succ f1 ih =>
      intro f2 n h1 h2
      cases f2 with
      | zero =>
          rw [toDigitsRevAux, toDigitsRevAux, if_pos (by omega)]
      | succ f2 =>
          rw [toDigitsRevAux, toDigitsRevAux]
          by_cases h : n = 0
          · rw [if_pos h, if_pos h]
          · rw [if_neg h, if_neg h,
              ih f2 (n / 10) (by omega) (by omega)]

theorem toDigitsRev_eq (n : Nat) :
    toDigitsRev n = if n = 0 then [] else (48 + n % 10) :: toDigitsRev (n / 10) := by
  unfold toDigitsRev
  by_cases h : n = 0
  · subst h
    rfl
  · obtain ⟨m, rfl⟩ : ∃ m, n = m + 1 := ⟨n - 1, by omega⟩
    rw [toDigitsRevAux, if_neg h, if_neg h,
      toDigitsRevAux_mono m ((m + 1) / 10) ((m + 1) / 10) (by omega) le_rfl]

theorem checksumLoopAux_mono (p : List Nat) : ∀ f1 f2 i acc,
    p.length ≤ i + f1 → p.length ≤ i + f2 →
    checksumLoopAux p i acc f1 = checksumLoopAux p i acc f2 := by
  intro f1
  induction f1 with
  | zero =>
      intro f2 i acc h1 _
      cases f2 with
      | zero => rfl
      | succ f2 =>
          rw [checksumLoopAux, checksumLoopAux, if_neg (by omega)]
  | succ f1 ih =>
      intro f2 i acc h1 h2
      cases f2 with
      | zero =>
          rw [checksumLoopAux, checksumLoopAux, if_neg (by omega)]
      | succ f2 =>
          rw [checksumLoopAux, checksumLoopAux]
          by_cases h : i < p.length
          · rw [if_pos h, if_pos h]
            exact ih f2 (i + 2) _ (by omega) (by omega)
          · rw [if_neg h, if_neg h]

theorem checksumLoop_eq (p : List Nat) (i acc : Nat) :
    checksumLoop p i acc =
      if i < p.length then
        checksumLoop p (i + 2)
          (acc ^^^ (if i + 1 < p.length then
            ((p.getD i 0) <<< 8) ||| p.getD (i + 1) 0
          else (p.getD i 0) <<< 8))
      else acc := by
  by_cases h : i < p.length
  · rw [if_pos h]
    unfold checksumLoop
    rw [show p.length + 1 - i = (p.length - i) + 1 from by omega]
    simp only [checksumLoopAux, if_pos h]
    by_cases h2 : i + 1 < p.length
    · rw [if_pos h2]
      apply checksumLoopAux_mono <;> omega
    · rw [if_neg h2]
      apply checksumLoopAux_mono <;> omega
  · rw [if_neg h]
    unfold checksumLoop
    rcases Nat.eq_zero_or_pos (p.length + 1 - i) with h0 | h0
    · rw [h0]
      rfl
    · obtain ⟨k, hk⟩ : ∃ k, p.length + 1 - i = k + 1 := ⟨p.length - i, by omega⟩
      rw [hk, checksumLoopAux, if_neg h]

theorem colonScan_eq_of_win {p : List Nat} {k : Nat} {i j : Nat}
    (hij : i ≤ j) (hj : j < p.length) (hw : winAt p k j)
    (hno : ∀ l, i ≤ l → l < j → ¬ winAt p k l) : colonScan p k i = j := by
  rw [colonScan_eq, if_pos (lt_of_le_of_lt hij hj)]
  by_cases hwin : winAt p k i
  · have hij2 : i = j := by
      by_contra hne
      exact hno i le_rfl (lt_of_le_of_ne hij hne) hwin
    rw [if_pos hwin]
    exact hij2
  · rw [if_neg hwin]
    have hlt : i < j := lt_of_le_of_ne hij (fun he => hwin (he ▸ hw))
    exact colonScan_eq_of_win (by omega) hj hw (fun l h1 h2 => hno l (by omega) h2)
termination_by j - i

theorem colonScan_zero_no_win {p : List Nat} {k i : Nat} (hi : 0 < i)
    (h : colonScan p k i = 0) :
    ∀ l, i ≤ l → l < p.length → ¬ winAt p k l := by
  intro l hl1 hl2 hw
  rw [colonScan_eq] at h
  by_cases hip : i < p.length
  · rw [if_pos hip] at h
    by_cases hwin : winAt p k i
    · rw [if_pos hwin] at h
      omega
    · rw [if_neg hwin] at h
      have hne : i ≠ l := fun he => hwin (he ▸ hw)
      exact colonScan_zero_no_win (by omega) h l (by omega) hl2 hw
  · exact hip (lt_of_le_of_lt hl1 hl2)
termination_by p.length - i

theorem toDigitsRev_digits (n : Nat) : ∀ x ∈ toDigitsRev n, 48 ≤ x ∧ x ≤ 57 := by
  intro x hx
  rw [toDigitsRev_eq] at hx
  by_cases h : n = 0
  · simp [h] at hx
  · rw [if_neg h] at hx
    rcases List.mem_cons.1 hx with h1 | h1
    · have : n % 10 < 10 := Nat.mod_lt _ (by omega)
      omega
    · exact toDigitsRev_digits (n / 10) x h1
termination_by n
decreasing_by exact Nat.div_lt_self (Nat.pos_of_ne_zero h) (by omega)

theorem numDigitsBytes_digits (n : Nat) :
    ∀ x ∈ numDigitsBytes n, 48 ≤ x ∧ x ≤ 57 := by
  intro x hx
  unfold numDigitsBytes at hx
  by_cases h : n = 0
  · rw [if_pos h] at hx
    simp at hx
    omega
  · rw [if_neg h] at hx
    exact toDigitsRev_digits n x (List.mem_reverse.1 hx)

theorem numDigitsBytes_ne_nil (n : Nat) : numDigitsBytes n ≠ [] := by
  unfold numDigitsBytes
  by_cases h : n = 0
  · simp [h]
  · rw [if_neg h, toDigitsRev_eq, if_neg h]
    simp

theorem foldl_toDigitsRev (n acc : Nat) :
    (toDigitsRev n).reverse.foldl (fun a c => a * 10 + (c - 48)) acc =
      acc * 10 ^ (toDigitsRev n).length + n := by
  rw [toDigitsRev_eq]
  by_cases h : n = 0
  · simp [h]
  · rw [if_neg h]
    simp only [List.reverse_cons, List.foldl_append, List.foldl_cons,
      List.foldl_nil, List.length_cons]
    rw [foldl_toDigitsRev (n / 10) acc]
    have h1 : 48 + n % 10 - 48 = n % 10 := by omega
    have h2 : n / 10 * 10 + n % 10 = n := by omega
    rw [h1, pow_succ]
    have : acc * 10 ^ (toDigitsRev (n / 10)).length * 10 = acc * (10 ^ (toDigitsRev (n / 10)).length * 10) := by ring
    omega
termination_by n
decreasing_by exact Nat.div_lt_self (Nat.pos_of_ne_zero h) (by omega)

theorem numDigitsBytes_val (n : Nat) :
    (numDigitsBytes n).foldl (fun a c => a * 10 + (c - 48)) 0 = n := by
  unfold numDigitsBytes
  by_cases h : n = 0
  · simp [h]
  · rw [if_neg h, foldl_toDigitsRev]
    simp

theorem readNum_block (D : List Nat) :
    ∀ (pre suf : List Nat) (acc : Nat),
      (∀ x ∈ D, 48 ≤ x ∧ x ≤ 57) → suf.head? = some 125 →
      readNum (pre ++ D ++ suf) pre.length acc =
        D.foldl (fun a c => a * 10 + (c - 48)) acc := by
  induction D with
  | nil =>
      intro pre suf acc _ hsuf
      cases suf with
      | nil => simp at hsuf
      | cons c cs =>
        have hc : c = 125 := by simpa using hsuf
        rw [readNum_eq]
        have hlen : pre.length < (pre ++ [] ++ c :: cs).length := by
          simp
        rw [if_pos hlen]
        have hget : (pre ++ [] ++ c :: cs).getD pre.length 0 = c := by
          simp only [List.append_nil]
          rw [List.getD_append_right _ _ _ _ le_rfl]
          simp
        rw [if_neg (by rw [hget, hc]; omega)]
        simp
  | cons d ds ih =>
      intro pre suf acc hD hsuf
      have hdd : 48 ≤ d ∧ d ≤ 57 := hD d (List.mem_cons_self d ds)
      rw [readNum_eq]
      have hlen : pre.length < (pre ++ (d :: ds) ++ suf).length := by
        simp
      rw [if_pos hlen]
      have hget : (pre ++ (d :: ds) ++ suf).getD pre.length 0 = d := by
        rw [List.append_assoc, List.getD_append_right _ _ _ _ le_rfl]
        simp
      rw [if_pos (by rw [hget]; exact hdd), hget]
      have hre : pre ++ (d :: ds) ++ suf = (pre ++ [d]) ++ ds ++ suf := by
        simp
      have hlen2 : pre.length + 1 = (pre ++ [d]).length := by simp
      rw [hre, hlen2, ih (pre ++ [d]) suf _ (fun x hx => hD x (List.mem_cons_of_mem d hx)) hsuf]
      simp

theorem digCount_block (D : List Nat) :
    ∀ (pre suf : List Nat),
      (∀ x ∈ D, 48 ≤ x ∧ x ≤ 57) → suf.head? = some 125 →
      digCount (pre ++ D ++ suf) pre.length = D.length := by
  induction D with
  | nil =>
      intro pre suf _ hsuf
      cases suf with
      | nil => simp at hsuf
      | cons c cs =>
        have hc : c = 125 := by simpa using hsuf
        rw [digCount_eq]
        have hlen : pre.length < (pre ++ [] ++ c :: cs).length := by simp
        rw [if_pos hlen]
        have hget : (pre ++ [] ++ c :: cs).getD pre.length 0 = c := by
          simp only [List.append_nil]
          rw [List.getD_append_right _ _ _ _ le_rfl]
          simp
        rw [if_neg (by rw [hget, hc]; omega)]
        simp
  | cons d ds ih =>
      intro pre suf hD hsuf
      have hdd : 48 ≤ d ∧ d ≤ 57 := hD d (List.mem_cons_self d ds)
      rw [digCount_eq]
      have hlen : pre.length < (pre ++ (d :: ds) ++ suf).length := by
        simp
      rw [if_pos hlen]
      have hget : (pre ++ (d :: ds) ++ suf).getD pre.length 0 = d := by
        rw [List.append_assoc, List.getD_append_right _ _ _ _ le_rfl]
        simp
      rw [if_pos (by rw [hget]; exact hdd)]
      have hre : pre ++ (d :: ds) ++ suf = (pre ++ [d]) ++ ds ++ suf := by simp
      have hlen2 : pre.length + 1 = (pre ++ [d]).length := by simp
      rw [hre, hlen2, ih (pre ++ [d]) suf (fun x hx => hD x (List.mem_cons_of_mem d hx)) hsuf]
      simp

theorem intScan_block (D : List Nat) :
    ∀ (pre suf : List Nat),
      (∀ x ∈ D, 48 ≤ x ∧ x ≤ 57) → suf.head? = some 125 →
      intScan (pre ++ D ++ suf) pre.length = ValueType.integer := by
  induction D with
  | nil =>
      intro pre suf _ hsuf
      cases suf with
      | nil => simp at hsuf
      | cons c cs =>
        have hc : c = 125 := by simpa using hsuf
        rw [intScan_eq]
        have hlen : pre.length < (pre ++ [] ++ c :: cs).length := by simp
        rw [if_pos hlen]
        have hget : (pre ++ [] ++ c :: cs).getD pre.length 0 = c := by
          simp only [List.append_nil]
          rw [List.getD_append_right _ _ _ _ le_rfl]
          simp
        rw [if_pos (by rw [hget, hc]; omega)]
  | cons d ds ih =>
      intro pre suf hD hsuf
      have hdd : 48 ≤ d ∧ d ≤ 57 := hD d (List.mem_cons_self d ds)
      rw [intScan_eq]
      have hlen : pre.length < (pre ++ (d :: ds) ++ suf).length := by
        simp
      rw [if_pos hlen]
      have hget : (pre ++ (d :: ds) ++ suf).getD pre.length 0 = d := by
        rw [List.append_assoc, List.getD_append_right _ _ _ _ le_rfl]
        simp
      rw [if_neg (by rw [hget]; omega), if_neg (by rw [hget]; omega)]
      have hre : pre ++ (d :: ds) ++ suf = (pre ++ [d]) ++ ds ++ suf := by simp
      have hlen2 : pre.length + 1 = (pre ++ [d]).length := by simp
      rw [hre, hlen2, ih (pre ++ [d]) suf (fun x hx => hD x (List.mem_cons_of_mem d hx)) hsuf]

theorem getD_dropLast (b : List Nat) (hLast : b.getLast? = some 125)
    (i : Nat) (h : i < b.length - 1) : b.dropLast.getD i 0 = b.getD i 0 := by
  conv_rhs => rw [← List.dropLast_append_getLast? 125 hLast]
  rw [List.getD_append _ _ _ _ (by rw [List.length_dropLast]; omega)]

theorem csShape_assoc (b : List Nat) (n : Nat) :
    csShape b n =
      (b.dropLast ++ [44, 34, 99, 34, 58]) ++ (numDigitsBytes n ++ [125]) := by
  simp [csShape]

theorem csShape_length (b : List Nat) (n : Nat) (hLen : 0 < b.length) :
    (csShape b n).length = b.length + 5 + (numDigitsBytes n).length := by
  simp [csShape, List.length_dropLast]
  omega

theorem csShape_getD_low (b : List Nat) (n : Nat)
    (hLast : b.getLast? = some 125) (i : Nat) (h : i < b.length - 1) :
    (csShape b n).getD i 0 = b.getD i 0 := by
  unfold csShape
  rw [List.append_assoc, List.append_assoc,
    List.getD_append _ _ _ _ (by rw [List.length_dropLast]; omega)]
  exact getD_dropLast b hLast i h

theorem csShape_getD_key (b : List Nat) (n : Nat) (hLen : 0 < b.length)
    (k : Nat) (hk : k < 5) :
    (csShape b n).getD (b.length - 1 + k) 0 = [44, 34, 99, 34, 58].getD k 0 := by
  unfold csShape
  rw [List.append_assoc, List.append_assoc,
    List.getD_append_right _ _ _ _ (by rw [List.length_dropLast]; omega)]
  rw [List.length_dropLast]
  have he : b.length - 1 + k - (b.length - 1) = k := by omega
  rw [he, ← List.append_assoc,
    List.getD_append _ _ _ _ (by simp; omega)]
  rw [List.getD_append _ _ _ _ (by simp [hk])]

theorem csShape_getD_digits (b : List Nat) (n : Nat) (hLen : 0 < b.length)
    (l : Nat) :
    (csShape b n).getD (b.length + 4 + l) 0 = (numDigitsBytes n ++ [125]).getD l 0 := by
  rw [csShape_assoc,
    List.getD_append_right _ _ _ _ (by simp [List.length_dropLast]; omega)]
  congr 1
  simp [List.length_dropLast]
  omega

theorem csShape_win (b : List Nat) (n : Nat) (hLen : 6 < b.length)
    (hLast : b.getLast? = some 125) :
    winAt (csShape b n) 99 (b.length + 3) := by
  have h4 := csShape_getD_key b n (by omega) 4 (by omega)
  have h3 := csShape_getD_key b n (by omega) 3 (by omega)
  have h2 := csShape_getD_key b n (by omega) 2 (by omega)
  have h1 := csShape_getD_key b n (by omega) 1 (by omega)
  have e4 : b.length - 1 + 4 = b.length + 3 := by omega
  have e3 : b.length - 1 + 3 = b.length + 3 - 1 := by omega
  have e2 : b.length - 1 + 2 = b.length + 3 - 2 := by omega
  have e1 : b.length - 1 + 1 = b.length + 3 - 3 := by omega
  rw [e4] at h4
  rw [e3] at h3
  rw [e2] at h2
  rw [e1] at h1
  exact ⟨h4, h2, h1, h3⟩

theorem csShape_no_win_below (b : List Nat) (n : Nat) (hLen : 6 < b.length)
    (hLast : b.getLast? = some 125) (hNo : get_colon_position b 99 4 = 0) :
    ∀ l, 4 ≤ l → l < b.length + 3 → ¬ winAt (csShape b n) 99 l := by
  have hbNo : ∀ l, 4 ≤ l → l < b.length → ¬ winAt b 99 l := by
    intro l h1 h2
    unfold get_colon_position at hNo
    rw [if_pos hLen] at hNo
    exact colonScan_zero_no_win (by omega) hNo l h1 h2
  intro l h1 h2 hw
  by_cases hcase : l ≤ b.length - 2
  · have t0 := csShape_getD_low b n hLast l (by omega)
    have t1 := csShape_getD_low b n hLast (l - 1) (by omega)
    have t2 := csShape_getD_low b n hLast (l - 2) (by omega)
    have t3 := csShape_getD_low b n hLast (l - 3) (by omega)
    exact hbNo l h1 (by omega) ⟨t0 ▸ hw.1, t2 ▸ hw.2.1, t3 ▸ hw.2.2.1, t1 ▸ hw.2.2.2⟩
  · have hk : l - (b.length - 1) < 4 := by omega
    have := csShape_getD_key b n (by omega) (l - (b.length - 1)) (by omega)
    have he : b.length - 1 + (l - (b.length - 1)) = l := by omega
    rw [he] at this
    have h58 := hw.1
    rw [this] at h58
    interval_cases h : l - (b.length - 1) <;> simp_all

theorem csShape_colonScan (b : List Nat) (n : Nat) (hLen : 6 < b.length)
    (hLast : b.getLast? = some 125) (hNo : get_colon_position b 99 4 = 0) :
    colonScan (csShape b n) 99 4 = b.length + 3 := by
  have hlen := csShape_length b n (by omega)
  have hd := numDigitsBytes_ne_nil n
  have hd1 : 0 < (numDigitsBytes n).length := List.length_pos.2 hd
  exact colonScan_eq_of_win (by omega) (by omega)
    (csShape_win b n hLen hLast) (csShape_no_win_below b n hLen hLast hNo)

theorem csShape_colon (b : List Nat) (n : Nat) (hLen : 6 < b.length)
    (hLast : b.getLast? = some 125) (hNo : get_colon_position b 99 4 = 0) :
    get_colon_position (csShape b n) 99 4 = b.length + 3 := by
  have hlen := csShape_length b n (by omega)
  unfold get_colon_position
  rw [if_pos (by omega)]
  exact csShape_colonScan b n hLen hLast hNo

theorem csShape_colon_self (b : List Nat) (n : Nat) (hLen : 6 < b.length)
    (hLast : b.getLast? = some 125) :
    get_colon_position (csShape b n) 99 (b.length + 3) = b.length + 3 := by
  have hlen := csShape_length b n (by omega)
  have hd1 : 0 < (numDigitsBytes n).length :=
    List.length_pos.2 (numDigitsBytes_ne_nil n)
  unfold get_colon_position
  rw [if_pos (by omega)]
  exact colonScan_eq_of_win le_rfl (by omega) (csShape_win b n hLen hLast)
    (fun l h1 h2 => absurd (lt_of_le_of_lt h1 h2) (lt_irrefl _))

theorem csShape_value_position (b : List Nat) (n : Nat) (hLen : 6 < b.length)
    (hLast : b.getLast? = some 125) (hNo : get_colon_position b 99 4 = 0) :
    get_value_position (csShape b n) 99 4 = b.length + 4 := by
  simp only [get_value_position, csShape_colon b n hLen hLast hNo]
  rw [if_pos (by omega)]

theorem csShape_get_number (b : List Nat) (n : Nat) (hLen : 6 < b.length)
    (hLast : b.getLast? = some 125) (hNo : get_colon_position b 99 4 = 0) :
    get_number (csShape b n) 99 4 = n := by
  simp only [get_number, csShape_value_position b n hLen hLast hNo]
  rw [if_pos (by omega)]
  have hpre : (b.dropLast ++ [44, 34, 99, 34, 58]).length = b.length + 4 := by
    simp [List.length_dropLast]
    omega
  have hblock := readNum_block (numDigitsBytes n)
    (b.dropLast ++ [44, 34, 99, 34, 58]) [125] 0
    (numDigitsBytes_digits n) rfl
  rw [hpre] at hblock
  simp only [List.append_assoc] at hblock
  rw [show csShape b n =
        b.dropLast ++ ([44, 34, 99, 34, 58] ++ (numDigitsBytes n ++ [125])) by
      simp [csShape]]
  exact hblock.trans (numDigitsBytes_val n)

theorem csShape_field_length (b : List Nat) (n : Nat) (hLen : 6 < b.length)
    (hLast : b.getLast? = some 125) :
    get_field_length (csShape b n) 99 (b.length + 3) =
      4 + (numDigitsBytes n).length := by
  have hvp : get_value_position (csShape b n) 99 (b.length + 3) = b.length + 4 := by
    simp only [get_value_position, csShape_colon_self b n hLen hLast]
    rw [if_pos (by omega)]
  obtain ⟨d0, ds, hD⟩ : ∃ d0 ds, numDigitsBytes n = d0 :: ds := by
    cases h : numDigitsBytes n with
    | nil => exact absurd h (numDigitsBytes_ne_nil n)
    | cons a l => exact ⟨a, l, rfl⟩
  have hd0 : 48 ≤ d0 ∧ d0 ≤ 57 :=
    numDigitsBytes_digits n d0 (by rw [hD]; exact List.mem_cons_self _ _)
  have hgd : (csShape b n).getD (b.length + 4) 0 = d0 := by
    have hx := csShape_getD_digits b n (by omega) 0
    rw [Nat.add_zero] at hx
    rw [hx, hD]
    rfl
  have hpre : (b.dropLast ++ [44, 34, 99, 34, 58]).length = b.length + 4 := by
    simp [List.length_dropLast]
    omega
  have hvt : get_value_type (csShape b n) 99 (b.length + 3) = ValueType.integer := by
    simp only [get_value_type, hvp]
    rw [if_neg (by omega), if_neg (by rw [hgd]; omega)]
    have hblock := intScan_block (numDigitsBytes n)
      (b.dropLast ++ [44, 34, 99, 34, 58]) [125] (numDigitsBytes_digits n) rfl
    rw [hpre] at hblock
    simp only [List.append_assoc] at hblock
    rw [show csShape b n =
          b.dropLast ++ ([44, 34, 99, 34, 58] ++ (numDigitsBytes n ++ [125])) by
        simp [csShape]]
    exact hblock
  simp only [get_field_length, hvp]
  rw [if_neg (by omega), show b.length + 4 - 1 = b.length + 3 from by omega, hvt]
  have hblock := digCount_block (numDigitsBytes n)
    (b.dropLast ++ [44, 34, 99, 34, 58]) [125] (numDigitsBytes_digits n) rfl
  rw [hpre] at hblock
  simp only [List.append_assoc] at hblock
  rw [show csShape b n =
        b.dropLast ++ ([44, 34, 99, 34, 58] ++ (numDigitsBytes n ++ [125])) by
      simp [csShape]]
  rw [hblock]

theorem csShape_shift (b : List Nat) (n : Nat) (hLen : 6 < b.length)
    (hLast : b.getLast? = some 125) :
    shiftLeft (csShape b n) (b.length - 1) b.length
        (4 + (numDigitsBytes n).length + 1) =
      b.dropLast ++ (125 :: ([34, 99, 34, 58] ++ (numDigitsBytes n ++ [125]))) := by
  have hdl : b.dropLast.length = b.length - 1 := List.length_dropLast b
  rw [shiftLeft_eq, if_pos (by omega), shiftLeft_eq, if_neg (by omega)]
  have hv : (csShape b n).getD
      (b.length - 1 + (4 + (numDigitsBytes n).length + 1)) 0 = 125 := by
    rw [show b.length - 1 + (4 + (numDigitsBytes n).length + 1) =
          b.length + 4 + (numDigitsBytes n).length from by omega,
      csShape_getD_digits b n (by omega) _,
      List.getD_append_right _ _ _ _ le_rfl]
    simp
  rw [hv, show csShape b n =
        b.dropLast ++ (44 :: ([34, 99, 34, 58] ++ (numDigitsBytes n ++ [125]))) by
      simp [csShape]]
  rw [List.set_append_right _ _ (by omega)]
  rw [hdl, Nat.sub_self]
  rfl

theorem csShape_remove (b : List Nat) (n : Nat) (hLen : 6 < b.length)
    (hLast : b.getLast? = some 125) (hNo : get_colon_position b 99 4 = 0) :
    remove (csShape b n) 99 4 = (b, b.length) := by
  have hdl : b.dropLast.length = b.length - 1 := List.length_dropLast b
  have hlen := csShape_length b n (by omega)
  have hcomma : (csShape b n).getD (b.length + 3 - 3 - 1) 0 = 44 := by
    have hx := csShape_getD_key b n (by omega) 0 (by omega)
    rw [Nat.add_zero] at hx
    rw [show b.length + 3 - 3 - 1 = b.length - 1 from by omega, hx]
    rfl
  simp only [remove, csShape_colon b n hLen hLast hNo,
    csShape_field_length b n hLen hLast]
  rw [if_neg (by omega), if_pos (And.intro (by omega) hcomma)]
  simp only [show b.length + 3 - 3 - 1 = b.length - 1 from by omega,
    show (csShape b n).length - (4 + (numDigitsBytes n).length + 1) = b.length
      from by omega]
  rw [csShape_shift b n hLen hLast]
  have htake : List.take (b.length - 1)
      (b.dropLast ++ 125 :: ([34, 99, 34, 58] ++ (numDigitsBytes n ++ [125]))) =
      b.dropLast := List.take_left' hdl
  have hdrop : List.drop (b.length - 1 + (4 + (numDigitsBytes n).length + 1))
      (b.dropLast ++ 125 :: ([34, 99, 34, 58] ++ (numDigitsBytes n ++ [125]))) =
      [125] := by
    rw [show b.dropLast ++ 125 :: ([34, 99, 34, 58] ++ (numDigitsBytes n ++ [125])) =
          (b.dropLast ++ 125 :: ([34, 99, 34, 58] ++ numDigitsBytes n)) ++ [125] by
        simp]
    exact List.drop_left' (by simp [hdl]; omega)
  rw [htake, hdrop, List.dropLast_append_getLast? 125 hLast]

theorem set_number_append_c (b : List Nat) (n : Nat) (hLen : 6 < b.length)
    (hLast : b.getLast? = some 125) (hNo : get_colon_position b 99 4 = 0) :
    set_number b 99 n 4 = csShape b n := by
  have hdl : b.dropLast.length = b.length - 1 := List.length_dropLast b
  have hb : b = b.dropLast ++ [125] := (List.dropLast_append_getLast? 125 hLast).symm
  have htake : b.take (b.length - 1) = b.dropLast :=
    (List.dropLast_eq_take b).symm
  have hdrop : b.drop (b.length - 1) = [125] := by
    have h2 : (b.dropLast ++ [125]).drop b.dropLast.length = [125] :=
      List.drop_left _ _
    rw [← hb, hdl] at h2
    exact h2
  simp only [set_number, hNo]
  rw [if_neg (show ¬(0 : Nat) ≠ 0 from fun h => h rfl)]
  rw [if_neg (by simp)]
  rw [if_pos (show 2 < (b, b.length).2 from by omega)]
  show List.take ((b.take (b.length - 1) ++ [44, 34, 99, 34, 58] ++
      b.drop (b.length - 1)).length - 1) _ ++ _ ++ _ = _
  rw [htake, hdrop]
  have hlen2 : (b.dropLast ++ [44, 34, 99, 34, 58] ++ [125]).length - 1 =
      b.length + 4 := by
    simp [hdl]
    omega
  rw [hlen2]
  have htake2 : (b.dropLast ++ [44, 34, 99, 34, 58] ++ [125]).take (b.length + 4) =
      b.dropLast ++ [44, 34, 99, 34, 58] := by
    rw [show b.dropLast ++ [44, 34, 99, 34, 58] ++ [125] =
          (b.dropLast ++ [44, 34, 99, 34, 58]) ++ [125] by simp]
    exact List.take_left' (by simp [hdl]; omega)
  have hdrop2 : (b.dropLast ++ [44, 34, 99, 34, 58] ++ [125]).drop (b.length + 4) =
      [125] := by
    rw [show b.dropLast ++ [44, 34, 99, 34, 58] ++ [125] =
          (b.dropLast ++ [44, 34, 99, 34, 58]) ++ [125] by simp]
    exact List.drop_left' (by simp [hdl]; omega)
  rw [htake2, hdrop2]
  simp [csShape]

theorem insert_checksum_shape (b : List Nat) (hLen : 6 < b.length)
    (hLast : b.getLast? = some 125) (hNo : get_colon_position b 99 4 = 0) :
    insert_checksum b = csShape b (generate_checksum b) := by
  unfold insert_checksum
  exact set_number_append_c b (generate_checksum b) hLen hLast hNo

/-- C1: the claim that no exception terminates the receive loop — in
particular that an inbound ERROR-coded message is handled without an
uncaught exception when the RetrySlot mapping is empty — fails on the code:
the frame `{"m":8,"i":1}` decodes and validates, the ERROR branch defaults
the error kind to CHECKSUM, and line 124 subscripts the empty
`_recoverable_message` before checking `_active_message`, raising a
`KeyError` that the loop's `except (UnicodeDecodeError, JSONDecodeError)`
clause does not catch.  The theorem evaluates the engine at this failing
input: the frame is well formed and valid, yet the iteration ends in an
uncaught `KeyError` that terminates `listen`. -/
theorem listen_error_frame_empty_slot_keyerror :
    decode c1Frame = some [(109, JVal.int 8), (105, JVal.int 1)] ∧
    validate_message 0 [65] (decode c1Frame) = true ∧
    listenIteration 20 (envPlain 1000) initES c1Frame 0 =
      Except.error PyExc.keyError :=
  ⟨rfl, rfl, rfl⟩

/-- C7: the round trip `remove` then `set_number` does not reproduce a
decode-equal buffer for an interior field.  `remove` first compacts the
buffer with its shift loop and then additionally deletes the slice
`[fp : fp + fl]` of the already shifted buffer, so for the well-formed
buffer `{"a":1,"c":2,"z":3,"w":4}` it destroys the `"z"` field and leaves
trailing junk; the subsequent `set_number` insertion therefore yields an
undecodable buffer instead of the original with the `c` value replaced. -/
theorem remove_set_corrupts_interior_field :
    decode c7buf = some [(97, JVal.int 1), (99, JVal.int 2), (122, JVal.int 3),
      (119, JVal.int 4)] ∧
    (remove c7buf 99 4).1 = c7corrupt ∧
    c7corrupt ≠ c7expected ∧
    decode (set_number (remove c7buf 99 4).1 99 5 4) = none :=
  ⟨rfl, rfl, by decide, rfl⟩

/-- C10 counterexample: at the claim's own example input — a well-formed
buffer whose *text value* contains the characters `"c":` — the primitives
do not operate inside the string value.  The encoder escapes the value's
quote characters (`\"c\":`), which breaks the quote-key-quote-colon byte
window, so `get_colon_position` finds the real `c` field (colon index 17),
`get_number` returns its value 5, and `remove` deletes exactly the real
field, leaving a decodable buffer. -/
theorem escaped_text_value_located_correctly :
    encode [(116, JVal.str c10tval), (99, JVal.int 5)] = c10enc ∧
    get_colon_position c10enc 99 4 = 17 ∧
    get_number c10enc 99 4 = 5 ∧
    (remove c10enc 99 4).1 = c10encRemoved ∧
    decode c10encRemoved = some [(116, JVal.str c10tval)] :=
  ⟨rfl, rfl, rfl, rfl, rfl⟩

/-- C10 as amended: the field-locating primitive is the forward scan for a
colon preceded by quote, key byte, quote — and a buffer whose *nested
structured value* contains that byte window (here `{"a":{"c":1},"c":7}`)
makes `get_number` and `remove` operate on the nested bytes rather than on
the real field: `get_number` returns the inner 1 instead of 7, and `remove`
corrupts the buffer to the undecodable `{"a":{:7}c":7}` instead of removing
the real field, so checksum stripping or insertion corrupts such buffers. -/
theorem nested_value_mislocated_and_corrupted :
    get_colon_position c10nested 99 4 = 9 ∧
    get_number c10nested 99 4 = 1 ∧
    get_number c10nested 99 4 ≠ 7 ∧
    (remove c10nested 99 4).1 = c10nestedBad ∧
    (remove c10nested 99 4).1 ≠ c10nestedGood ∧
    decode c10nestedBad = none ∧
    decode (set_number c10nested 99 9 4) = none :=
  ⟨rfl, rfl, by decide, rfl, by decide, rfl, rfl⟩

/-- C9: the framer's transition rules and the single-frame scenario.
Outside a message a `{` byte starts accumulation as the first buffered
byte and any other byte changes nothing; while accumulating below the
128-byte capacity, a `}` whose immediately preceding buffered byte is not
`\` emits the accumulated buffer (with the `}` appended) and returns to
idle, while any other byte is appended; a byte arriving with the buffer
full discards the partial frame silently and returns to idle; and the
stream `ab{"m":1,"t":"*"}cd` fed byte-by-byte yields exactly one frame,
the bracketed substring. -/
theorem framer_transitions_and_single_frame :
    (∀ (buf : List Nat) (c : Nat),
      framerStep ⟨false, buf⟩ c =
        if c = 123 then (⟨true, [123]⟩, none) else (⟨false, buf⟩, none)) ∧
    (∀ (buf : List Nat) (c : Nat), buf.length < 128 →
      framerStep ⟨true, buf⟩ c =
        if c = 125 ∧ buf.length ≠ 0 ∧ buf.getLast? ≠ some 92 then
          (⟨false, []⟩, some (buf ++ [125]))
        else (⟨true, buf ++ [c]⟩, none)) ∧
    (∀ (buf : List Nat) (c : Nat), ¬ buf.length < 128 →
      framerStep ⟨true, buf⟩ c = (⟨false, []⟩, none)) ∧
    runFramer ⟨false, []⟩ c9stream = (⟨false, []⟩, [c9frame]) := by
  refine ⟨fun buf c => ?_, fun buf c h => ?_, fun buf c h => ?_, rfl⟩
  · simp [framerStep]
  · simp [framerStep, h]
  · simp [framerStep, h]

/-- C9 witness: the accumulating rules applied at concrete inputs — a
terminating `}` after `{"`, an appended ordinary byte, an escaped `}`
being appended, and the overflow discard at a full 128-byte buffer. -/
theorem framer_transitions_single_frame_witness :
    framerStep ⟨true, [123, 34]⟩ 125 = (⟨false, []⟩, some [123, 34, 125]) ∧
    framerStep ⟨true, [123, 34]⟩ 97 = (⟨true, [123, 34, 97]⟩, none) ∧
    framerStep ⟨true, [123, 92]⟩ 125 = (⟨true, [123, 92, 125]⟩, none) ∧
    framerStep ⟨true, List.replicate 128 97⟩ 125 = (⟨false, []⟩, none) := by
  have h := framer_transitions_and_single_frame
  refine ⟨?_, ?_, ?_, ?_⟩
  · rw [h.2.1 [123, 34] 125 (by decide)]
    decide
  · rw [h.2.1 [123, 34] 97 (by decide)]
    decide
  · rw [h.2.1 [123, 92] 125 (by decide)]
    decide
  · rw [h.2.2.1 (List.replicate 128 97) 125 (by simp)]

/-- C8: identity and age arithmetic is modulo 2^16.  `message_id` is the
clock masked to 16 bits, hence below 65536; the age expression of the
receive loop satisfies `age(0, 65535) = 1`; and at the top of a
receive-loop iteration the RetrySlot with stored integer identity `idn`
is cleared exactly when the wrapped age of `idn` against the current
`message_id` exceeds 500 (and an inactive slot stays inactive). -/
theorem identity_age_mod_65536 :
    (∀ t : Nat, message_id t < 65536) ∧
    ageExpr 0 65535 = 1 ∧
    (∀ (env : Env) (s : ES) (idn : Int),
      mlookup s.recoverable kIDENTITY = some (JVal.int idn) →
      retryStep env s =
        Except.ok
          (if s.active ∧ 500 < ageExpr (message_id env.now : Int) idn then
            { s with active := false }
          else s)) := by
  refine ⟨fun t => ?_, by decide, fun env s idn hid => ?_⟩
  · exact lt_of_le_of_lt Nat.and_le_right (by omega)
  · unfold retryStep
    rcases ha : s.active with _ | _
    · simp [ha]
    · simp only [ha, if_true, subscript, hid, asInt, exBind_ok, exPure]
      by_cases hage : 500 < ageExpr (message_id env.now : Int) idn
      · rw [if_pos hage, if_pos (by simp [hage])]
      · rw [if_neg hage, if_neg (by simp [hage])]

/-- C8 witness: the clearing rule at a concrete state — stored identity
65535, clock 0, so the wrapped age is 1 and the active slot survives;
with clock 501 the age is 502 and the slot is cleared. -/
theorem identity_age_mod_65536_witness :
    retryStep (envPlain 0) ⟨0, [], [(105, JVal.int 65535)], true, 0, []⟩ =
      Except.ok ⟨0, [], [(105, JVal.int 65535)], true, 0, []⟩ ∧
    retryStep (envPlain 501) ⟨0, [], [(105, JVal.int 65535)], true, 0, []⟩ =
      Except.ok ⟨0, [], [(105, JVal.int 65535)], false, 0, []⟩ := by
  constructor
  · rw [identity_age_mod_65536.2.2 (envPlain 0)
      ⟨0, [], [(105, JVal.int 65535)], true, 0, []⟩ 65535 rfl]
    rfl
  · rw [identity_age_mod_65536.2.2 (envPlain 501)
      ⟨0, [], [(105, JVal.int 65535)], true, 0, []⟩ 65535 rfl]
    rfl

/-- C5 counterexample: mode A of the claim fails on the code.  The message
`{"c":23350,"m":7,"i":1}` carries a checksum field that passes checksum
verification (the source's own `valid_checksum` accepts it), carries an
integer message code and an identity and no `to` field — so the claim says
validation accepts it — yet `validate_message` rejects every message that
carries the checksum key at all. -/
theorem checksummed_message_rejected_by_validate :
    (valid_checksum c5msg).1 = true ∧
    mlookup c5msg kMESSAGE = some (JVal.int 7) ∧
    mhas c5msg kIDENTITY = true ∧
    mlookup c5msg kTO = none ∧
    validate_message 0 [65] (some c5msg) = false :=
  ⟨rfl, rfl, rfl, rfl, rfl⟩

/-- C5 as amended: `validate_message` accepts a decoded message exactly
when it carries no checksum field at all (a message carrying one is always
rejected, whether or not its checksum verifies), carries an integer-typed
message code, carries an identity, and — when a `to` field is present —
the `to` equals the local channel when integer-typed or the local talker
name when text-typed. -/
theorem validate_message_characterization :
    ∀ (ch : Int) (name : List Nat) (msg : Msg),
      validate_message ch name (some msg) = true ↔
        mlookup msg kCHECKSUM = none ∧
        (∃ v : Int, mlookup msg kMESSAGE = some (JVal.int v)) ∧
        (mlookup msg kIDENTITY).isSome = true ∧
        (match mlookup msg kTO with
         | none => True
         | some (JVal.int t) => t = ch
         | some (JVal.str t) => t = name) := by
  intro ch name msg
  unfold validate_message mhas
  rcases hC : mlookup msg kCHECKSUM with _ | vc
  · rcases hM : mlookup msg kMESSAGE with _ | vm
    · simp [hC, hM]
    · rcases vm with nV | sV
      · rcases hI : mlookup msg kIDENTITY with _ | vi
        · simp [hC, hM, hI]
        · rcases hT : mlookup msg kTO with _ | vt
          · simp [hC, hM, hI, hT]
          · rcases vt with nT | sT <;> simp [hC, hM, hI, hT]
      · simp [hC, hM]
  · simp [hC]

/-- C3 counterexample: the claim says a second resend attempt for the same
slot is refused with no second transmission; on the code the second
qualifying ERROR frame does transmit.  Trace: the initial send stores the
recoverable message and activates the slot; the first ERROR/CHECKSUM frame
with matching identity resends it once (renamed `m` to `M`) and leaves the
slot active; the second identical frame transmits the stored message again
— the sends list of that iteration is nonempty — and only then clears the
slot; a third frame is refused. -/
theorem second_error_frame_still_transmits :
    remoteSend (envPlain 1000) initES c3callMsg =
      Except.ok (c3es1, c3slot0, [c3slot0], true) ∧
    listenIteration 20 (envPlain 1000) c3es1 c3errFrame 7 =
      Except.ok (c3es2, [c3slotMC]) ∧
    listenIteration 20 (envPlain 1000) c3es2 c3errFrame 7 =
      Except.ok (c3es3, [c3slotMC]) ∧
    listenIteration 20 (envPlain 1000) c3es3 c3errFrame 7 =
      Except.ok (c3es3, []) := by
  refine ⟨rfl, ?_, ?_, ?_⟩ <;> rfl

/-- C3 as amended: on an ERROR/CHECKSUM message that qualifies (slot
active, no identity given), the stored recoverable message is resent and
the slot stays active; on a second qualifying ERROR it is resent once more
— a second transmission does occur — and the slot is cleared; only a third
attempt is refused with no transmission. -/
theorem error_checksum_resends_twice_then_clears :
    ∀ (env : Env) (ch rcv : Int) (orig : Msg) (dev : List (JVal × Nat))
      (mv idv : Int),
      handleError env ⟨ch, orig, c3slot env.mf.talkerName mv idv, true, rcv, dev⟩
          c3errMsg =
        Except.ok (⟨ch, orig, c3slotM env.mf.talkerName mv idv, true, rcv, dev⟩,
          c3errMsg, [c3slotM env.mf.talkerName mv idv]) ∧
      handleError env ⟨ch, orig, c3slotM env.mf.talkerName mv idv, true, rcv, dev⟩
          c3errMsg =
        Except.ok (⟨ch, orig, c3slotM env.mf.talkerName mv idv, false, rcv, dev⟩,
          c3errMsg, [c3slotM env.mf.talkerName mv idv]) ∧
      handleError env ⟨ch, orig, c3slotM env.mf.talkerName mv idv, false, rcv, dev⟩
          c3errMsg =
        Except.ok (⟨ch, orig, c3slotM env.mf.talkerName mv idv, false, rcv, dev⟩,
          c3errMsg, []) := by
  intro env ch rcv orig dev mv idv
  refine ⟨?_, ?_, ?_⟩ <;>
    simp [handleError, c3errMsg, c3slot, c3slotM, getMessageData,
      messageValueCast, subscript, mlookup, mhas, mset, renameRecoverable,
      remoteSend, eCHECKSUM, kERROR, kIDENTITY, kMESSAGE, kBROADCAST, kFROM,
      kTO, kCHECKSUM, bREMOTE, mERROR, mECHO, mNOISE, Except.map]

/-- C6: dispatch of a CALL request.  When the named action is absent from
the `run` table, exactly one ECHO reply is produced, carrying roger-code
SAY_AGAIN — and since the conclusion is the same for every table with that
lookup outcome, no capability callable is invoked.  When the action is
present and its callable returns true (leaving the message unchanged),
exactly two ECHO replies are produced: first the immediate acknowledgment
with no roger field, then the reply carrying roger-code ROGER. -/
theorem call_dispatch_echo_replies :
    ∀ (fuel : Nat) (env : Env) (s : ES) (a frm : List Nat) (idv : Int)
      (tbl : List (List Nat × RunEntry)),
      env.mf.run = some tbl →
      frm ≠ env.mf.talkerName →
      (runLookup tbl (JVal.str a) = none →
        processMessage (fuel + 2) env s (c6msg a frm idv) =
          Except.ok ({ s with received := 1 },
            c6sayAgainMsg a frm env.mf.talkerName idv,
            [c6sayAgainMsg a frm env.mf.talkerName idv], false)) ∧
      (∀ entry : RunEntry, runLookup tbl (JVal.str a) = some entry →
        (∀ m : Msg, entry.fn m = (true, m)) →
        processMessage (fuel + 2) env s (c6msg a frm idv) =
          Except.ok ({ s with received := 1 },
            c6rogerMsg a frm env.mf.talkerName idv,
            [c6ackMsg a frm env.mf.talkerName idv,
             c6rogerMsg a frm env.mf.talkerName idv], true)) := by
  intro fuel env s a frm idv tbl hrun hfrm
  constructor
  · intro hlook
    simp [processMessage, transmitMessage, remoteSend, c6msg, c6sayAgainMsg,
      mset, mlookup, mhas, messageValueCast, subscript, broadcastValueCast,
      hrun, hlook, hfrm, kMESSAGE, kACTION, kIDENTITY, kFROM, kTO, kROGER,
      kBROADCAST, mCALL, mECHO, mLIST, mTALK, mCHANNEL, mPING, mSYSTEM,
      mERROR, mNOISE, bREMOTE, bSELF, rSAY_AGAIN]
  · intro entry hlook hfn
    simp [processMessage, transmitMessage, remoteSend, c6msg, c6ackMsg,
      c6rogerMsg, mset, mlookup, mhas, messageValueCast, subscript,
      broadcastValueCast, hrun, hlook, hfn, hfrm, kMESSAGE, kACTION,
      kIDENTITY, kFROM, kTO, kROGER, kBROADCAST, mCALL, mECHO, mLIST, mTALK,
      mCHANNEL, mPING, mSYSTEM, mERROR, mNOISE, bREMOTE, bSELF, rROGER]

/-- C6 witness: the two dispatch outcomes at a concrete engine — a one-entry
`run` table holding action `x` with an always-true callable, an unknown
action `y`, sender `B`, identity 5. -/
theorem call_dispatch_echo_replies_witness :
    processMessage 20
        ⟨⟨[65], [100], some [([120], ⟨[100], fun m => (true, m)⟩)], none, none,
          false, false⟩, [79, 83], 1000⟩
        initES (c6msg [121] [66] 5) =
      Except.ok ({ initES with received := 1 },
        c6sayAgainMsg [121] [66] [65] 5, [c6sayAgainMsg [121] [66] [65] 5],
        false) ∧
    processMessage 20
        ⟨⟨[65], [100], some [([120], ⟨[100], fun m => (true, m)⟩)], none, none,
          false, false⟩, [79, 83], 1000⟩
        initES (c6msg [120] [66] 5) =
      Except.ok ({ initES with received := 1 },
        c6rogerMsg [120] [66] [65] 5,
        [c6ackMsg [120] [66] [65] 5, c6rogerMsg [120] [66] [65] 5], true) := by
  constructor
  · exact (call_dispatch_echo_replies 18
      ⟨⟨[65], [100], some [([120], ⟨[100], fun m => (true, m)⟩)], none, none,
        false, false⟩, [79, 83], 1000⟩
      initES [121] [66] 5 [([120], ⟨[100], fun m => (true, m)⟩)] rfl
      (by decide)).1 rfl
  · exact (call_dispatch_echo_replies 18
      ⟨⟨[65], [100], some [([120], ⟨[100], fun m => (true, m)⟩)], none, none,
        false, false⟩, [79, 83], 1000⟩
      initES [120] [66] 5 [([120], ⟨[100], fun m => (true, m)⟩)] rfl
      (by decide)).2 ⟨[100], fun m => (true, m)⟩ (by simp [runLookup])
      (fun m => rfl)

/-- C2 counterexample: a frame whose claimed checksum 1 differs from the
locally computed 11778 completes its iteration without any transmission —
in particular no ERROR reply with kind CHECKSUM is ever sent to the
sender, refuting the claim that the failure is reported; the mismatch
check of listen lines 90-93 ends in a bare `pass`. -/
theorem mismatched_frame_gets_no_error_reply :
    get_number (c2Frame 1) 99 4 = 1 ∧
    generate_checksum ((remove (c2Frame 1) 99 4).1) = 11778 ∧
    (1 : Nat) ≠ 11778 ∧
    listenIteration 20 (envPlain 1000) initES (c2Frame 1) 0 =
      Except.ok (initES, []) :=
  ⟨rfl, rfl, by decide, rfl⟩

/-- C2 as amended: on a checksum mismatch the engine still decodes and
validates the message and dispatches it normally, but it reports nothing
to the sender — the claimed checksum value has no effect whatsoever on the
iteration (the comparison of listen lines 90-93 ends in a bare `pass`), so
processing a mismatching frame is identical to processing the same frame
with any other claimed value, including the matching one.  Concretely, the
TALK frame `{"m":3,"i":5,"c":1}` with its bogus claimed checksum is
dispatched: the engine state changes (`received` becomes 3) and the normal
ECHO reply is transmitted — an ECHO, not an ERROR. -/
theorem checksum_mismatch_changes_nothing :
    ∀ (fuel : Nat) (env : Env) (s : ES) (addr : Nat) (n m : Nat),
      get_number (c2Frame n) 99 4 = n ∧
      (remove (c2Frame n) 99 4).1 = c2base ∧
      decode c2base = some [(109, JVal.int 7), (105, JVal.int 5)] ∧
      (∀ (ch : Int) (name : List Nat),
        validate_message ch name (decode c2base) = true) ∧
      (listenIteration fuel env s (c2Frame n) addr =
        listenIteration fuel env s (c2Frame m) addr) ∧
      get_number c2talkFrame 99 4 = 1 ∧
      generate_checksum ((remove c2talkFrame 99 4).1) = 11782 ∧
      (1 : Nat) ≠ 11782 ∧
      (listenIteration 20 (envPlain 1000) initES c2talkFrame 7 =
        Except.ok ({ initES with received := 3 }, [c2talkReply])) ∧
      ({ initES with received := 3 } : ES) ≠ initES ∧
      mlookup c2talkReply kMESSAGE = some (JVal.int mECHO) ∧
      mECHO ≠ mERROR := by
  have hLen : 6 < c2base.length := by decide
  have hLast : c2base.getLast? = some 125 := rfl
  have hNo : get_colon_position c2base 99 4 = 0 := rfl
  have hstrip : ∀ k, (remove (c2Frame k) 99 4).1 = c2base := fun k =>
    congrArg Prod.fst (csShape_remove c2base k hLen hLast hNo)
  intro fuel env s addr n m
  refine ⟨csShape_get_number c2base n hLen hLast hNo, hstrip n, rfl,
    fun ch name => rfl, ?_, rfl, rfl, by decide, rfl, by decide, rfl,
    by decide⟩
  simp only [listenIteration, kCHECKSUM, hstrip]

/-- C4 counterexample: for the sent buffer `{"m":5,"i":1,"c":11780}` the
carried value 11780 does not equal the XOR checksum of that buffer with
the checksum field's digits replaced by zero — neither digit-for-digit
(`"c":00000`, checksum 23348) nor as a single zero (`"c":0`, also 23348). -/
theorem inserted_checksum_not_over_zeroed_digits :
    insert_checksum c4b0 = c4b1 ∧
    get_number c4b1 99 4 = 11780 ∧
    generate_checksum c4zd = 23348 ∧
    generate_checksum c4zs = 23348 ∧
    (11780 : Nat) ≠ 23348 :=
  ⟨rfl, rfl, rfl, rfl, by decide⟩

/-- C4 as amended: for every sent buffer, the integer value carried in the
checksum field equals the 16-bit checksum — XOR of consecutive 2-byte
big-endian chunks, a final odd byte occupying the high byte of a chunk —
computed over the buffer with the entire checksum field removed (its key,
digits and separating comma), equivalently over the buffer as it was
before the checksum field was inserted; not over the buffer with the
digits zeroed.  Stated for any `}`-terminated base buffer without a `c`
byte window of its own. -/
theorem inserted_checksum_over_removed_field :
    ∀ b : List Nat, 6 < b.length → b.getLast? = some 125 →
      get_colon_position b 99 4 = 0 →
      get_number (insert_checksum b) 99 4 = generate_checksum b ∧
      (remove (insert_checksum b) 99 4).1 = b ∧
      generate_checksum ((remove (insert_checksum b) 99 4).1) =
        generate_checksum b := by
  intro b hLen hLast hNo
  rw [insert_checksum_shape b hLen hLast hNo]
  have hrm : (remove (csShape b (generate_checksum b)) 99 4).1 = b :=
    congrArg Prod.fst (csShape_remove b (generate_checksum b) hLen hLast hNo)
  exact ⟨csShape_get_number b (generate_checksum b) hLen hLast hNo, hrm,
    by rw [hrm]⟩

/-- C4 witness: the amended statement at the concrete buffer
`{"m":5,"i":1}` — the inserted field carries 11780, which is exactly the
checksum of the buffer with the field removed. -/
theorem inserted_checksum_over_removed_field_witness :
    get_number (insert_checksum c4b0) 99 4 = generate_checksum c4b0 ∧
    (remove (insert_checksum c4b0) 99 4).1 = c4b0 ∧
    generate_checksum c4b0 = 11780 := by
  have h := inserted_checksum_over_removed_field c4b0 (by decide) rfl rfl
  exact ⟨h.1, h.2.1, rfl⟩

/-- C2 amended-theorem witness: the invariance applied at claimed values 1
and 11778 in a concrete engine state, together with the discharged layout
facts. -/
theorem checksum_mismatch_changes_nothing_witness :
    listenIteration 20 (envPlain 1000) initES (c2Frame 1) 0 =
      listenIteration 20 (envPlain 1000) initES (c2Frame 11778) 0 ∧
    get_number (c2Frame 1) 99 4 = 1 :=
  ⟨(checksum_mismatch_changes_nothing 20 (envPlain 1000) initES 0 1 11778).2.2.2.2.1,
   (checksum_mismatch_changes_nothing 20 (envPlain 1000) initES 0 1 11778).1⟩
